import Mathlib

/-
Verification development for the PIXID invoice corrector
(simple_parser.py, encoding_helper.py).

Modelling conventions:
* strings are `List Char` (`LC`); Python `str.split('\n')` / `'\n'.join`
  are `splitLines` / `joinLines`;
* Python numbers (float and Decimal) are modelled as exact rationals `ℚ`;
  the two-decimal "{v:.2f}" formatting is `fmt2` (round half to even, the
  rounding Python applies when formatting);
* fallible Python code (exceptions: float() on bad text, Decimal division
  by zero, XML parse errors) is modelled with `Option`: `none` = raises;
* the fixed regular expressions of `_correct_line` are implemented
  directly as scanners (`substRunF`, `substQtyF`, `findQty`): each pattern
  is a literal opening part, a nonempty greedy character-class run and a
  literal closing part, which is exactly how the source's patterns match;
* `xml.etree.ElementTree` element trees are `XTree`; parsing is a lexer
  plus a stack builder for the well-formed fragment the repository uses;
* `dateutil.parser.parse(s).date()` (an external library) is modelled by
  `parseDateM`, restricted to ISO `YYYY-MM-DD` dates;
* `chardet.detect` (an external library) is a parameter `det` of
  `detect_and_decode`, returning a candidate encoding and a confidence.
-/

set_option maxRecDepth 100000

abbrev LC := List Char

/-- Characters of the regex class `[\d.]` used for numeric tag contents. -/
def isNumCh (c : Char) : Bool := c.isDigit || c == '.'

/-- Characters that a two-decimal formatted number can contain. -/
def cleanCh (c : Char) : Bool := c.isDigit || c == '.' || c == '-'

/-- Whitespace, as stripped by Python `str.strip()` / `float()`. -/
def isWsCh (c : Char) : Bool := c == ' ' || c == '\t' || c == '\n' || c == '\r'

/-- The decimal digit character for `d < 10`. -/
def digCh (d : ℕ) : Char :=
  if d = 0 then '0' else if d = 1 then '1' else if d = 2 then '2'
  else if d = 3 then '3' else if d = 4 then '4' else if d = 5 then '5'
  else if d = 6 then '6' else if d = 7 then '7' else if d = 8 then '8' else '9'

/-- Decimal digits of a natural number (fuelled, `natChars` wraps it). -/
def natCharsF : ℕ → ℕ → LC
  | 0, _ => []
  | f+1, n => if n < 10 then [digCh n] else natCharsF f (n / 10) ++ [digCh (n % 10)]

/-- Decimal digit string of a natural number. -/
def natChars (n : ℕ) : LC := natCharsF (n + 1) n

/-- Round a rational to the nearest integer, ties to even: the rounding
Python applies when formatting a `Decimal` (and a float) with `:.2f`. -/
def rndHalfEven (x : ℚ) : ℤ :=
  let f : ℤ := ⌊x⌋
  let r : ℚ := x - f
  if r < 1/2 then f
  else if 1/2 < r then f + 1
  else if f % 2 = 0 then f else f + 1

/-- Model of Python `"{v:.2f}"` formatting of an exact decimal value. -/
def fmt2 (q : ℚ) : LC :=
  let c : ℤ := rndHalfEven (q * 100)
  let n := c.natAbs
  let body := natChars (n / 100) ++ '.' :: digCh (n % 100 / 10) :: [digCh (n % 10)]
  if c < 0 then '-' :: body else body

/-- Numeric value of a digit string. -/
def digitsVal (l : LC) : ℕ := l.foldl (fun a c => a * 10 + (c.toNat - 48)) 0

/-- Exponent suffix of a Python float literal (`e±ddd`), `some 0` when absent. -/
def parseExp : LC → Option ℤ
  | [] => some 0
  | c :: r =>
    if c == 'e' || c == 'E' then
      let (es, r1) : ℤ × LC :=
        match r with
        | '-' :: r2 => (-1, r2)
        | '+' :: r2 => (1, r2)
        | r2 => (1, r2)
      let ds := r1.takeWhile Char.isDigit
      if !ds.isEmpty && (r1.dropWhile Char.isDigit).isEmpty
      then some (es * (digitsVal ds : ℤ)) else none
    else none

/-- Model of Python `float(text)`: optional surrounding whitespace, optional
sign, digits with an optional fractional part and an optional exponent.
`none` models the `ValueError` that `float` raises on anything else. -/
def parsePyFloat (s : LC) : Option ℚ :=
  let t := ((s.dropWhile isWsCh).reverse.dropWhile isWsCh).reverse
  let (sgn, t1) : ℚ × LC :=
    match t with
    | '-' :: r => (-1, r)
    | '+' :: r => (1, r)
    | r => (1, r)
  let ip := t1.takeWhile Char.isDigit
  let t2 := t1.dropWhile Char.isDigit
  match t2 with
  | '.' :: r =>
    let fp := r.takeWhile Char.isDigit
    let t3 := r.dropWhile Char.isDigit
    if ip.isEmpty && fp.isEmpty then none
    else (parseExp t3).map fun e =>
      sgn * ((digitsVal ip : ℚ) + (digitsVal fp : ℚ) / ((10 : ℚ) ^ fp.length)) * (10 : ℚ) ^ e
  | other =>
    if ip.isEmpty then none
    else (parseExp other).map fun e => sgn * (digitsVal ip : ℚ) * (10 : ℚ) ^ e

/-- Drop a literal from the front of a list, `none` if it is not there. -/
def dropPref : LC → LC → Option LC
  | [], l => some l
  | _ :: _, [] => none
  | p :: ps, x :: xs => if p = x then dropPref ps xs else none

/-- Match, at the start of `l`, the pattern "literal `o`, then a nonempty
greedy run of characters satisfying `p`, then literal `cl`"; returns the
run and the rest.  This is exactly how the source's patterns of the shape
`o[class]+cl` match (the class never contains the first character of `cl`,
so greedy matching with backtracking degenerates to the maximal run). -/
def matchRun (o cl : LC) (p : Char → Bool) (l : LC) : Option (LC × LC) :=
  match dropPref o l with
  | none => none
  | some l1 =>
    let ds := l1.takeWhile p
    if ds.isEmpty then none
    else
      match dropPref cl (l1.dropWhile p) with
      | none => none
      | some l2 => some (ds, l2)

/-- Fuelled scanner for `re.sub` with a pattern of the shape `o[class]+cl`:
replaces every (leftmost, non-overlapping) occurrence by `o ++ r ++ cl`. -/
def substRunF (o cl : LC) (p : Char → Bool) (r : LC) : ℕ → LC → LC
  | _, [] => []
  | 0, l => l
  | f+1, x :: xs =>
    match matchRun o cl p (x :: xs) with
    | some (_, rest) => o ++ r ++ cl ++ substRunF o cl p r f rest
    | none => x :: substRunF o cl p r f xs

/-- Model of `re.sub` for a pattern `o[class]+cl` with literal replacement content `r`. -/
def substRun (o cl : LC) (p : Char → Bool) (r : LC) (l : LC) : LC :=
  substRunF o cl p r l.length l

/-- Match `<ItemQuantity[^>]*>([\d.]+)</ItemQuantity>` at the start of the
list: returns the attribute run, the captured digits and the rest. -/
def matchQty (l : LC) : Option (LC × LC × LC) :=
  match dropPref "<ItemQuantity".data l with
  | none => none
  | some l1 =>
    let a := l1.takeWhile (fun c => !(c == '>'))
    match dropPref ">".data (l1.dropWhile (fun c => !(c == '>'))) with
    | none => none
    | some l3 =>
      let ds := l3.takeWhile isNumCh
      if ds.isEmpty then none
      else
        match dropPref "</ItemQuantity>".data (l3.dropWhile isNumCh) with
        | none => none
        | some l5 => some (a, ds, l5)

/-- Fuelled scanner for the `ItemQuantity` substitution, which keeps the
captured attribute text (`\1`) and replaces the quantity by `r`. -/
def substQtyF (r : LC) : ℕ → LC → LC
  | _, [] => []
  | 0, l => l
  | f+1, x :: xs =>
    match matchQty (x :: xs) with
    | some (a, _, rest) =>
      "<ItemQuantity".data ++ a ++ '>' :: r ++ "</ItemQuantity>".data ++ substQtyF r f rest
    | none => x :: substQtyF r f xs

/-- Model of `re.sub` for the `ItemQuantity` pattern. -/
def substQty (r l : LC) : LC := substQtyF r l.length l

/-- Model of `re.search` for the `ItemQuantity` pattern: captured digits of the
first match. -/
def findQty : LC → Option LC
  | [] => none
  | x :: xs =>
    match matchQty (x :: xs) with
    | some (_, ds, _) => some ds
    | none => findQty xs

/-- Model of Python `text.split` on newline. -/
def splitLines : LC → List LC
  | [] => [[]]
  | c :: t =>
    match splitLines t with
    | [] => [[c]]
    | h :: r => if c = '\n' then [] :: h :: r else (c :: h) :: r

/-- Model of Python newline join. -/
def joinLines : List LC → LC
  | [] => []
  | [l] => l
  | l :: ls => l ++ '\n' :: joinLines ls

/-- Model of Python `str.strip()`. -/
def stripWs (l : LC) : LC := ((l.dropWhile isWsCh).reverse.dropWhile isWsCh).reverse

/-- Model of Python `needle in hay` on strings (substring containment). -/
def containsSub (n : LC) : LC → Bool
  | [] => n.isEmpty
  | x :: xs => (dropPref n (x :: xs)).isSome || containsSub n xs

/-! ### Element trees (model of `xml.etree.ElementTree`) -/

/-- An XML element: tag, attributes, text before the first child, children.
Tail texts are never consulted by the source, so they are not retained. -/
inductive XTree where
  | node (tag : LC) (attrs : List (LC × LC)) (text : Option LC) (children : List XTree)

def XTree.tag : XTree → LC
  | .node t _ _ _ => t

def XTree.attrs : XTree → List (LC × LC)
  | .node _ a _ _ => a

def XTree.text : XTree → Option LC
  | .node _ _ x _ => x

def XTree.children : XTree → List XTree
  | .node _ _ _ c => c

/-- Model of `element.get(name)`. -/
def getAttr (t : XTree) (name : LC) : Option LC :=
  (t.attrs.find? (fun p => p.1 == name)).map (·.2)

/-- Document-order iteration, `element.iter()` (fuelled; every caller
passes a fuel that is at least the document length, which bounds depth). -/
def preorderF : ℕ → XTree → List XTree
  | 0, t => [t]
  | f+1, t => t :: t.children.flatMap (preorderF f)

/-- Structural element equality (fuelled), modelling Python `==` on
elements for trees without physically shared duplicates. -/
def xeqF : ℕ → XTree → XTree → Bool
  | 0, _, _ => false
  | f+1, .node t1 a1 x1 c1, .node t2 a2 x2 c2 =>
    t1 == t2 && a1 == a2 && x1 == x2 && c1.length == c2.length &&
      (List.zip c1 c2).all (fun p => xeqF f p.1 p.2)

/-- Model of the parent lookup: rescan the whole tree for the element whose direct
children contain the target. -/
def findParentF (F : ℕ) (root target : XTree) : Option XTree :=
  (preorderF F root).find? (fun p => p.children.any (fun ch => xeqF F ch target))

/-! ### Parsing (model of `ET.fromstring` on the repository's documents) -/

inductive Tok where
  | topen (tag : LC) (attrs : List (LC × LC)) : Tok
  | tclose (tag : LC) : Tok
  | ttext (s : LC) : Tok

/-- Lex an attribute list up to and including the closing `>`. -/
def lexAttrsF : ℕ → LC → Option (List (LC × LC) × LC)
  | 0, _ => none
  | f+1, l =>
    let l1 := l.dropWhile isWsCh
    match l1 with
    | '>' :: r => some ([], r)
    | _ =>
      let nm := l1.takeWhile (fun c => !(isWsCh c) && !(c == '=') && !(c == '>'))
      if nm.isEmpty then none
      else
        match l1.dropWhile (fun c => !(isWsCh c) && !(c == '=') && !(c == '>')) with
        | '=' :: q :: r =>
          if q == '"' || q == '\'' then
            let v := r.takeWhile (fun c => !(c == q))
            match r.dropWhile (fun c => !(c == q)) with
            | _ :: r2 => (lexAttrsF f r2).map fun pr => ((nm, v) :: pr.1, pr.2)
            | [] => none
          else none
        | _ => none

/-- Lexer: open tags with attributes, close tags, nonempty text runs. -/
def lexF : ℕ → LC → Option (List Tok)
  | 0, _ => none
  | _+1, [] => some []
  | f+1, '<' :: '/' :: r =>
    let tg := r.takeWhile (fun c => !(c == '>'))
    (match r.dropWhile (fun c => !(c == '>')) with
     | _ :: r2 => (lexF f r2).map (Tok.tclose tg :: ·)
     | [] => none)
  | f+1, '<' :: r =>
    let tg := r.takeWhile (fun c => !(isWsCh c) && !(c == '>') && !(c == '/'))
    if tg.isEmpty then none
    else
      match lexAttrsF (r.length + 1) (r.drop tg.length) with
      | some (as, rest) => (lexF f rest).map (Tok.topen tg as :: ·)
      | none => none
  | f+1, l =>
    (lexF f (l.dropWhile (fun c => !(c == '<')))).map
      (Tok.ttext (l.takeWhile (fun c => !(c == '<'))) :: ·)

structure Frame where
  ftag : LC
  fattrs : List (LC × LC)
  ftext : Option LC
  fkids : List XTree

/-- Stack builder: text before the first child becomes `text`, later text
(tails) is discarded; a close tag must match the open tag; text around the
root may only be whitespace. -/
def buildF : List Tok → List Frame → Option XTree
  | [], _ => none
  | Tok.topen tg as :: rest, st => buildF rest (⟨tg, as, none, []⟩ :: st)
  | Tok.ttext s :: rest, st =>
    (match st with
     | [] => if s.all isWsCh then buildF rest [] else none
     | fr :: st' =>
       if fr.fkids.isEmpty && fr.ftext == none then
         buildF rest ({ fr with ftext := some s } :: st')
       else buildF rest st)
  | Tok.tclose tg :: rest, st =>
    (match st with
     | [] => none
     | fr :: st' =>
       if fr.ftag = tg then
         let nd := XTree.node fr.ftag fr.fattrs fr.ftext fr.fkids.reverse
         match st' with
         | [] =>
           if rest.all (fun t => match t with | Tok.ttext s => s.all isWsCh | _ => false)
           then some nd else none
         | fr2 :: st'' => buildF rest ({ fr2 with fkids := nd :: fr2.fkids } :: st'')
       else none)

/-- Model of `ET.fromstring`; `none` models the `ParseError` on malformed input. -/
def parseDoc (s : LC) : Option XTree :=
  (lexF (s.length + 1) s).bind (fun ts => buildF ts [])

/-! ### The fact record (`self.data`) -/

structure LineItem where
  description : LC
  quantity : ℚ
  unit : LC
  total : ℚ
deriving DecidableEq

structure Analysis where
  invoice_id : LC
  period_start : Option LC
  period_end : Option LC
  raf_hours : ℚ
  invoice_hours : ℚ
  lines : List LineItem
  total_charges : ℚ
  total_tax : ℚ
  total_amount : ℚ
  vat_rate : ℚ
  has_issue : Bool
  issue_message : LC
deriving DecidableEq

/-- The dictionary `analyze` starts from. -/
def initData (id : LC) : Analysis :=
  ⟨id, none, none, 0, 0, [], 0, 0, 0, 20, false, []⟩

/-- Suffix tag matching, `tag.endswith(sfx) or tag == sfx` (the disjunct is redundant). -/
def tagEnds (sfx tag : LC) : Bool := sfx.isSuffixOf tag

/-- Model of Python truthiness of an element's `.text`. -/
def tb : Option LC → Bool
  | none => false
  | some s => !s.isEmpty

/-- The time-interval step: add each direct `Duration` child's numeric
text to `raf_hours` when the interval's `type` attribute contains
"heure" case-insensitively; `none` models the `ValueError` of `float`. -/
def processTimeInterval (d : Analysis) (iv : XTree) : Option Analysis :=
  let ty := (getAttr iv "type".data).getD []
  iv.children.foldlM
    (fun acc ch =>
      if tagEnds "Duration".data ch.tag then
        if tb ch.text && containsSub "heure".data (ty.map Char.toLower) then
          match parsePyFloat (ch.text.getD []) with
          | some q => some { acc with raf_hours := acc.raf_hours + q }
          | none => none
        else some acc
      else some acc)
    d

/-- The TimeCard extraction pass. -/
def extractTimecards (F : ℕ) (root : XTree) (d : Analysis) : Option Analysis :=
  (preorderF F root).foldlM
    (fun acc el =>
      if tagEnds "TimeCard".data el.tag then
        (preorderF F el).foldlM
          (fun acc2 ch =>
            if tagEnds "PeriodStartDate".data ch.tag then
              some (if tb ch.text then { acc2 with period_start := ch.text } else acc2)
            else if tagEnds "PeriodEndDate".data ch.tag then
              some (if tb ch.text then { acc2 with period_end := ch.text } else acc2)
            else if tagEnds "TimeInterval".data ch.tag then
              processTimeInterval acc2 ch
            else some acc2)
          acc
      else some acc)
    d

/-- Line extraction: best-effort line record; `none` models a raised
`ValueError`, `some none` a discarded line (total ≤ 0). -/
def extractLine (F : ℕ) (root le : XTree) : Option (Option LineItem) :=
  ((preorderF F le).foldlM
    (fun (ld : LineItem) ch =>
      if tagEnds "Description".data ch.tag then
        if (match getAttr ch "owner".data with
            | none => true
            | some v => v.isEmpty) && tb ch.text then
          some { ld with description := ch.text.getD [] }
        else some ld
      else if tagEnds "ItemQuantity".data ch.tag then
        if tb ch.text then
          (parsePyFloat (ch.text.getD [])).map fun q =>
            { ld with quantity := q, unit := (getAttr ch "uom".data).getD "PCE".data }
        else some ld
      else if tagEnds "Total".data ch.tag then
        match findParentF F root ch with
        | some par =>
          if tagEnds "Charge".data par.tag then
            if tb ch.text then
              (parsePyFloat (ch.text.getD [])).map fun q => { ld with total := q }
            else some ld
          else some ld
        | none => some ld
      else some ld)
    ⟨[], 0, [], 0⟩).map
    fun ld => if ld.total > 0 then some ld else none

/-- The invoice-data extraction pass. -/
def extractInvoiceData (F : ℕ) (root : XTree) (d : Analysis) : Option Analysis :=
  (preorderF F root).foldlM
    (fun acc el =>
      if tagEnds "TotalCharges".data el.tag then
        if tb el.text then
          (parsePyFloat (el.text.getD [])).map fun q => { acc with total_charges := q }
        else some acc
      else if tagEnds "TotalTax".data el.tag then
        if tb el.text then
          (parsePyFloat (el.text.getD [])).map fun q => { acc with total_tax := q }
        else some acc
      else if tagEnds "TotalAmount".data el.tag then
        if tb el.text then
          (parsePyFloat (el.text.getD [])).map fun q => { acc with total_amount := q }
        else some acc
      else if tagEnds "Line".data el.tag then
        (extractLine F root el).map fun ld? =>
          match ld? with
          | some ld =>
            let acc2 := { acc with lines := acc.lines ++ [ld] }
            if (ld.unit = "HUR".data || ld.unit = "hur".data) &&
               containsSub "heure".data (ld.description.map Char.toLower) then
              { acc2 with invoice_hours := acc2.invoice_hours + ld.quantity }
            else acc2
          | none => acc
      else some acc)
    d

/-- The invoice identifier lookup. -/
def getInvoiceId (F : ℕ) (root : XTree) : LC :=
  match (preorderF F root).find?
      (fun el =>
        tagEnds "Id".data el.tag &&
        (match findParentF F root el with
         | some p => tagEnds "DocumentIds".data p.tag
         | none => false) &&
        tb el.text) with
  | some el => stripWs (el.text.getD [])
  | none => "UNKNOWN".data

/-- Modelled from the spec and the dateutil parse call:
`dateutil` (an external library, not part of this repository) parsing,
restricted to ISO `YYYY-MM-DD` calendar-date strings; anything else is
`none` (an exception in the source, swallowed by its caller). -/
def parseDateM (s : LC) : Option (ℕ × ℕ × ℕ) :=
  match s with
  | [y1, y2, y3, y4, '-', m1, m2, '-', d1, d2] =>
    if [y1, y2, y3, y4, m1, m2, d1, d2].all Char.isDigit then
      let y := digitsVal [y1, y2, y3, y4]
      let m := digitsVal [m1, m2]
      let dd := digitsVal [d1, d2]
      if 1 ≤ m && m ≤ 12 && 1 ≤ dd && dd ≤ 31 then some (y, m, dd) else none
    else none
  | _ => none

/-- The first detection rule's message. -/
def ecartMsg (d : Analysis) : LC :=
  "Écart détecté: RAF ".data ++ fmt2 d.raf_hours ++ "h vs Facture ".data ++
    fmt2 d.invoice_hours ++ "h".data

/-- The single-day heuristic's condition: both period bounds truthy, both
parse as dates, equal, and more than 12 invoiced hours. -/
def singleDayCond (d : Analysis) : Bool :=
  tb d.period_start && tb d.period_end &&
    (match parseDateM (d.period_start.getD []), parseDateM (d.period_end.getD []) with
     | some a, some b => decide (a = b) && decide (d.invoice_hours > 12)
     | _, _ => false)

/-- The inconsistency detector. -/
def detectIssues (d : Analysis) : Analysis :=
  let d1 :=
    if |d.raf_hours - d.invoice_hours| > 1/100 then
      { d with has_issue := true, issue_message := ecartMsg d }
    else d
  if singleDayCond d1 then
    { d1 with has_issue := true
              issue_message := d1.issue_message ++ " | Semaine à cheval détectée".data }
  else d1

/-- The corrections dictionary built once by `fix`. -/
structure Corrections where
  ctc : ℚ
  chrs : ℚ
  cper : Option LC
deriving DecidableEq

/-- Model of Python string interpolation of a value that may be `None`. -/
def strOf : Option LC → LC
  | some s => s
  | none => "None".data

/-- The per-line corrector.  Here `none` models an uncaught exception: `float()` on a
dots-only quantity, or the `Decimal` division by zero when
`total_charges = 0`. -/
def correct_line (d : Analysis) (corr : Corrections) (line : LC) : Option LC :=
  let n1 := substRun "<TotalCharges>".data "</TotalCharges>".data isNumCh
    (fmt2 corr.ctc) line
  let n2 := substRun "<TotalTax>".data "</TotalTax>".data isNumCh
    (fmt2 (corr.ctc * (20/100))) n1
  let n3 := substRun "<TotalAmount>".data "</TotalAmount>".data isNumCh
    (fmt2 (corr.ctc * (120/100))) n2
  let n4 := substRun "owner=\"NbHeuresFacturees\">".data "<".data isNumCh
    (fmt2 corr.chrs) n3
  let n5 := substRun "owner=\"DEB_PER\">".data "<".data (fun c => !(c == '<'))
    (strOf corr.cper) n4
  let n6 := substRun "owner=\"FIN_PER\">".data "<".data (fun c => !(c == '<'))
    (strOf corr.cper) n5
  let afterQty : Option LC :=
    if containsSub "ItemQuantity".data line && containsSub "uom=\"HUR\"".data line then
      match findQty line with
      | some ds =>
        match parsePyFloat ds with
        | some oldq =>
          if d.total_charges = 0 then none
          else some (substQty (fmt2 (oldq * (corr.ctc / d.total_charges))) n6)
        | none => none
      | none => some n6
    else some n6
  afterQty.map fun nl =>
    if corr.cper == d.period_start &&
       (["Supplémentaire".data, "RTT".data, "HS 125".data].any (containsSub · line)) &&
       containsSub "<Line>".data line &&
       (["Supplémentaire".data, "RTT".data].any (containsSub · line)) then
      "<!-- Ligne supprimée: HS/RTT hors période -->".data
    else nl

/-- The `for line in lines` loop of `fix`: correct every line, propagating
an exception (`none`) from any line. -/
def mapLines (g : LC → Option LC) : List LC → Option (List LC)
  | [] => some []
  | x :: xs =>
    match g x with
    | none => none
    | some y => (mapLines g xs).map (y :: ·)

/-- The corrector `fix`: identity when no issue was detected, otherwise the line-by-line
corrector; `none` models an exception escaping from `_correct_line`. -/
def fix (d : Analysis) (xml : LC) : Option LC :=
  if !d.has_issue then some xml
  else
    let ratio : ℚ := if d.invoice_hours > 0 then d.raf_hours / d.invoice_hours else 1
    let corr : Corrections := ⟨d.total_charges * ratio, d.raf_hours, d.period_start⟩
    (mapLines (correct_line d corr) (splitLines xml)).map joinLines

/-- The analysis pass on a parsed tree (fuel `F` bounds every tree traversal). -/
def analyzeTree (F : ℕ) (root : XTree) : Option Analysis :=
  (extractTimecards F root (initData (getInvoiceId F root))).bind fun d1 =>
    (extractInvoiceData F root d1).map detectIssues

/-- Parse then `analyze`. -/
def analyze (xml : LC) : Option Analysis :=
  (parseDoc xml).bind (analyzeTree (xml.length + 1))

/-- One full pass: `analyze` then `fix` on the same text. -/
def analyzeFix (xml : LC) : Option LC :=
  (analyze xml).bind fun d => fix d xml

/-! ### Encoding resolver (`encoding_helper.py`) -/

/-- Model of ASCII-lossy decoding (errors ignored): non-ASCII bytes are
dropped. -/
def asciiLossy (b : List ℕ) : LC := (b.filter (· < 128)).map Char.ofNat

/-- Leftmost match of the regex `encoding=["']([^"']+)["']`. -/
def findEncAttr : LC → Option LC
  | [] => none
  | x :: xs =>
    match dropPref "encoding=".data (x :: xs) with
    | some l1 =>
      (match l1 with
       | q :: r =>
         if q == '"' || q == '\'' then
           let v := r.takeWhile (fun c => !(c == '"') && !(c == '\''))
           if v.isEmpty then findEncAttr xs
           else
             match r.dropWhile (fun c => !(c == '"') && !(c == '\'')) with
             | _ :: _ => some v
             | [] => findEncAttr xs
         else findEncAttr xs
       | [] => findEncAttr xs)
    | none => findEncAttr xs

/-- Lower-casing plus the alias normalisation table of the source. -/
def normEnc (e : LC) : LC :=
  let el := e.map Char.toLower
  if el = "utf8".data then "utf-8".data
  else if el = "latin1".data then "latin-1".data
  else if el = "iso-8859-1".data then "latin-1".data
  else if el = "iso8859-1".data then "latin-1".data
  else if el = "windows-1252".data then "cp1252".data
  else if el = "cp-1252".data then "cp1252".data
  else el

/-- The encoding declared in the first 200 bytes' XML declaration. -/
def declEnc (b : List ℕ) : Option LC :=
  (findEncAttr (asciiLossy (b.take 200))).map normEnc

/-- Strict UTF-8 decoding (Python `bytes.decode('utf-8')`): rejects
truncated sequences, continuation errors, overlongs, surrogates and
out-of-range code points. -/
def utf8D : List ℕ → Option LC
  | [] => some []
  | b :: bs =>
    if b < 0x80 then (utf8D bs).map (Char.ofNat b :: ·)
    else if b < 0xC2 then none
    else if b < 0xE0 then
      match bs with
      | b2 :: bs2 =>
        if 0x80 ≤ b2 && b2 < 0xC0 then
          (utf8D bs2).map (Char.ofNat ((b - 0xC0) * 64 + (b2 - 0x80)) :: ·)
        else none
      | _ => none
    else if b < 0xF0 then
      match bs with
      | b2 :: b3 :: bs3 =>
        if (if b = 0xE0 then 0xA0 ≤ b2 && b2 < 0xC0
            else if b = 0xED then 0x80 ≤ b2 && b2 < 0xA0
            else 0x80 ≤ b2 && b2 < 0xC0) &&
           (0x80 ≤ b3 && b3 < 0xC0) then
          (utf8D bs3).map
            (Char.ofNat ((b - 0xE0) * 4096 + (b2 - 0x80) * 64 + (b3 - 0x80)) :: ·)
        else none
      | _ => none
    else if b < 0xF5 then
      match bs with
      | b2 :: b3 :: b4 :: bs4 =>
        if (if b = 0xF0 then 0x90 ≤ b2 && b2 < 0xC0
            else if b = 0xF4 then 0x80 ≤ b2 && b2 < 0x90
            else 0x80 ≤ b2 && b2 < 0xC0) &&
           (0x80 ≤ b3 && b3 < 0xC0) && (0x80 ≤ b4 && b4 < 0xC0) then
          (utf8D bs4).map
            (Char.ofNat ((b - 0xF0) * 262144 + (b2 - 0x80) * 4096 +
              (b3 - 0x80) * 64 + (b4 - 0x80)) :: ·)
        else none
      | _ => none
    else none

/-- Latin-1 decoding (total: every byte maps to a code point). -/
def latin1D (b : List ℕ) : LC := b.map Char.ofNat

/-- The cp1252 mapping for the 0x80–0x9F range; `none` for the five
undefined bytes (Python raises on them). -/
def cp1252Hi (b : ℕ) : Option ℕ :=
  if b = 0x80 then some 0x20AC else if b = 0x82 then some 0x201A
  else if b = 0x83 then some 0x0192 else if b = 0x84 then some 0x201E
  else if b = 0x85 then some 0x2026 else if b = 0x86 then some 0x2020
  else if b = 0x87 then some 0x2021 else if b = 0x88 then some 0x02C6
  else if b = 0x89 then some 0x2030 else if b = 0x8A then some 0x0160
  else if b = 0x8B then some 0x2039 else if b = 0x8C then some 0x0152
  else if b = 0x8E then some 0x017D else if b = 0x91 then some 0x2018
  else if b = 0x92 then some 0x2019 else if b = 0x93 then some 0x201C
  else if b = 0x94 then some 0x201D else if b = 0x95 then some 0x2022
  else if b = 0x96 then some 0x2013 else if b = 0x97 then some 0x2014
  else if b = 0x98 then some 0x02DC else if b = 0x99 then some 0x2122
  else if b = 0x9A then some 0x0161 else if b = 0x9B then some 0x203A
  else if b = 0x9C then some 0x0153 else if b = 0x9E then some 0x017E
  else if b = 0x9F then some 0x0178 else none

/-- cp1252 decoding. -/
def cp1252D (b : List ℕ) : Option LC :=
  b.mapM fun x =>
    if 0x80 ≤ x && x ≤ 0x9F then (cp1252Hi x).map Char.ofNat
    else some (Char.ofNat x)

/-- UTF-16 code units from bytes (after BOM handling), little/big endian. -/
def utf16Units (le : Bool) : List ℕ → Option (List ℕ)
  | [] => some []
  | a :: b :: rest =>
    (utf16Units le rest).map ((if le then a + 256 * b else 256 * a + b) :: ·)
  | _ => none

/-- Combine UTF-16 code units, pairing surrogates. -/
def utf16Combine : List ℕ → Option LC
  | [] => some []
  | u :: rest =>
    if u < 0xD800 || 0xE000 ≤ u then (utf16Combine rest).map (Char.ofNat u :: ·)
    else if u < 0xDC00 then
      match rest with
      | v :: rest2 =>
        if 0xDC00 ≤ v && v < 0xE000 then
          (utf16Combine rest2).map
            (Char.ofNat (0x10000 + (u - 0xD800) * 1024 + (v - 0xDC00)) :: ·)
        else none
      | [] => none
    else none

/-- UTF-16 decoding: BOM selects endianness, default little-endian. -/
def utf16D (b : List ℕ) : Option LC :=
  match b with
  | 0xFF :: 0xFE :: rest => (utf16Units true rest).bind utf16Combine
  | 0xFE :: 0xFF :: rest => (utf16Units false rest).bind utf16Combine
  | rest => (utf16Units true rest).bind utf16Combine

/-- UTF-32 decoding: BOM selects endianness, default little-endian. -/
def utf32Go (le : Bool) : List ℕ → Option LC
  | [] => some []
  | a :: b :: c :: d :: rest =>
    let v := if le then a + 256 * b + 65536 * c + 16777216 * d
             else d + 256 * c + 65536 * b + 16777216 * a
    if v < 0xD800 || (0xE000 ≤ v && v ≤ 0x10FFFF) then
      (utf32Go le rest).map (Char.ofNat v :: ·)
    else none
  | _ => none

def utf32D (b : List ℕ) : Option LC :=
  match b with
  | 0xFF :: 0xFE :: 0x00 :: 0x00 :: rest => utf32Go true rest
  | 0x00 :: 0x00 :: 0xFE :: 0xFF :: rest => utf32Go false rest
  | rest => utf32Go true rest

/-- Model of `bytes.decode(name)` for the encoding names the source can reach;
an unknown name is a `LookupError`, caught by the caller (`none`). -/
def decodeByName (e : LC) (b : List ℕ) : Option LC :=
  if e = "utf-8".data then utf8D b
  else if e = "latin-1".data || e = "iso-8859-1".data then some (latin1D b)
  else if e = "cp1252".data || e = "windows-1252".data then cp1252D b
  else if e = "utf-16".data then utf16D b
  else if e = "utf-32".data then utf32D b
  else none

def commonEncodings : List LC :=
  (["utf-8", "latin-1", "iso-8859-1", "windows-1252", "cp1252", "utf-16",
    "utf-32"] : List String).map String.data

/-- The marker test of method 4 (decoded text looks like XML). -/
def hasXmlMarker (t : LC) : Bool :=
  containsSub "<?xml".data t || containsSub "<Envelope".data t

/-- Method 4: first common encoding that decodes and yields a marker. -/
def tryCommon : List LC → List ℕ → Option (LC × LC)
  | [], _ => none
  | e :: es, b =>
    match decodeByName e b with
    | some t => if hasXmlMarker t then some (t, e) else tryCommon es b
    | none => tryCommon es b

/-- The encoding resolver.  Here `det` models `chardet.detect` (an external
library): a candidate encoding name and a confidence.  The function is
total: the final fallback (latin-1 with replacement — which never has
anything to replace, as latin-1 decodes every byte) always yields a
result. -/
def detect_and_decode (det : List ℕ → Option LC × ℚ) (content : LC ⊕ List ℕ) :
    LC × LC :=
  match content with
  | .inl s => (s, "already_string".data)
  | .inr b =>
    match (declEnc b).bind (fun e => (decodeByName e b).map fun t => (t, e)) with
    | some r => r
    | none =>
      let dc := det b
      match (if dc.2 > 7/10 then
               dc.1.bind (fun e => (decodeByName e b).map fun t => (t, e))
             else none) with
      | some r => r
      | none =>
        match tryCommon commonEncodings b with
        | some r => r
        | none => (latin1D b, "latin-1_forced".data)

/-- The processor constructor: bytes are decoded strictly as UTF-8
(never via the encoding resolver), then parsed; the pair is
`(self.xml_string, self.root)`. -/
def procInit (input : LC ⊕ List ℕ) : Option (LC × XTree) :=
  match input with
  | .inl s => (parseDoc s).map fun r => (s, r)
  | .inr b =>
    match utf8D b with
    | some s => (parseDoc s).map fun r => (s, r)
    | none => none

/-! ### Lemmas about the substitution scanners -/

theorem dropPref_eq_some {p l r : LC} (h : dropPref p l = some r) : l = p ++ r := by
  induction p generalizing l with
  | nil =>
    simp only [dropPref] at h
    simpa using Option.some.inj h
  | cons a ps ih =>
    cases l with
    | nil => simp [dropPref] at h
    | cons x xs =>
      by_cases hax : a = x
      · subst hax
        simp only [dropPref, if_pos rfl] at h
        simpa using ih h
      · simp [dropPref, hax] at h

theorem dropPref_append (p r : LC) : dropPref p (p ++ r) = some r := by
  induction p with
  | nil => simp [dropPref]
  | cons a ps ih => simp [dropPref, ih]

theorem matchRun_some_pref {o cl : LC} {p : Char → Bool} {l : LC} {pr : LC × LC}
    (h : matchRun o cl p l = some pr) : o <+: l := by
  unfold matchRun at h
  cases hd : dropPref o l with
  | none => simp [hd] at h
  | some l1 => exact ⟨l1, (dropPref_eq_some hd).symm⟩

theorem substRunF_skip {o cl : LC} {p : Char → Bool} {r : LC} :
    ∀ (f : ℕ) (l : LC), ¬ o <:+: l → substRunF o cl p r f l = l := by
  intro f
  induction f with
  | zero => intro l _; cases l <;> rfl
  | succ f ih =>
    intro l hl
    cases l with
    | nil => rfl
    | cons x xs =>
      cases hm : matchRun o cl p (x :: xs) with
      | some pr => exact absurd (matchRun_some_pref hm).isInfix hl
      | none =>
        simp only [substRunF, hm]
        exact congrArg (x :: ·) (ih xs (fun hi => hl (List.infix_cons hi)))

theorem pref_append_split {o u w : LC} (h : o <+: u ++ w) :
    o <+: u ∨ ∃ o2, o = u ++ o2 ∧ o2 <+: w := by
  induction u generalizing o with
  | nil => exact Or.inr ⟨o, rfl, by simpa using h⟩
  | cons a u' ih =>
    cases o with
    | nil => exact Or.inl List.nil_prefix
    | cons b o' =>
      rw [List.cons_append, List.cons_prefix_cons] at h
      obtain ⟨hb, h'⟩ := h
      rcases ih h' with h1 | ⟨o2, he, hp⟩
      · exact Or.inl (by rw [List.cons_prefix_cons]; exact ⟨hb, h1⟩)
      · exact Or.inr ⟨o2, by rw [hb, he, List.cons_append], hp⟩

theorem noInfix_cleanRun {o r v : LC} (ho : o ≠ [])
    (hoc : ∀ a ∈ o, cleanCh a = false) (hr : ∀ a ∈ r, cleanCh a = true)
    (hv : ¬ o <:+: v) : ¬ o <:+: (r ++ v) := by
  induction r with
  | nil => simpa using hv
  | cons c r' ih =>
    intro h
    rw [List.cons_append, List.infix_cons_iff] at h
    rcases h with h | h
    · cases o with
      | nil => exact ho rfl
      | cons b o' =>
        rw [List.cons_prefix_cons] at h
        have hb : cleanCh b = false := hoc b (List.mem_cons_self _ _)
        have hc : cleanCh c = true := hr c (List.mem_cons_self _ _)
        rw [h.1, hc] at hb
        simp at hb
    · exact ih (fun a ha => hr a (List.mem_cons_of_mem _ ha)) h

theorem noInfix_glue {o r u v : LC} (ho : o ≠ [])
    (hoc : ∀ a ∈ o, cleanCh a = false) (hr : ∀ a ∈ r, cleanCh a = true)
    (hrne : r ≠ []) (hu : ¬ o <:+: u) (hv : ¬ o <:+: v) :
    ¬ o <:+: (u ++ (r ++ v)) := by
  induction u with
  | nil => simpa using noInfix_cleanRun ho hoc hr hv
  | cons a u' ih =>
    intro h
    rw [List.cons_append, List.infix_cons_iff] at h
    rcases h with h | h
    · have h2 : o <+: (a :: u') ++ (r ++ v) := by
        rw [List.cons_append]; exact h
      rcases pref_append_split h2 with h1 | ⟨o2, he, hp⟩
      · exact hu h1.isInfix
      · cases o2 with
        | nil =>
          have he' : o = a :: u' := by simpa using he
          exact hu (he' ▸ List.infix_refl _)
        | cons b o2' =>
          have hbo : b ∈ o := by
            rw [he]
            exact List.mem_append_right _ (List.mem_cons_self _ _)
          have hb : cleanCh b = false := hoc b hbo
          cases r with
          | nil => exact hrne rfl
          | cons c r'' =>
            rw [List.cons_append, List.cons_prefix_cons] at hp
            have hc : cleanCh c = true := hr c (List.mem_cons_self _ _)
            rw [hp.1, hc] at hb
            simp at hb
    · exact ih (fun hi => hu (List.infix_cons hi)) h

/-- The skip form used stage by stage: a pattern whose opening literal has
no numeric characters leaves a string "concrete, one formatted number,
concrete" unchanged when it does not occur in the concrete parts. -/
theorem substRun_skip_glue {o cl : LC} {p : Char → Bool} {r r0 u v : LC}
    (ho : o ≠ []) (hoc : ∀ a ∈ o, cleanCh a = false)
    (hr : ∀ a ∈ r0, cleanCh a = true) (hrne : r0 ≠ [])
    (hu : ¬ o <:+: u) (hv : ¬ o <:+: v) :
    substRun o cl p r (u ++ (r0 ++ v)) = u ++ (r0 ++ v) :=
  substRunF_skip _ _ (noInfix_glue ho hoc hr hrne hu hv)

theorem substRun_skip {o cl : LC} {p : Char → Bool} {r l : LC}
    (h : ¬ o <:+: l) : substRun o cl p r l = l :=
  substRunF_skip _ _ h

/-! ### Formatted numbers: character content -/

theorem digCh_clean (d : ℕ) : cleanCh (digCh d) = true := by
  unfold digCh
  split_ifs <;> decide

theorem natCharsF_clean : ∀ (f n : ℕ), ∀ a ∈ natCharsF f n, cleanCh a = true := by
  intro f
  induction f with
  | zero => intro n a ha; simp [natCharsF] at ha
  | succ f ih =>
    intro n a ha
    simp only [natCharsF] at ha
    by_cases h10 : n < 10
    · rw [if_pos h10] at ha
      rcases List.mem_singleton.mp ha with rfl
      exact digCh_clean n
    · rw [if_neg h10] at ha
      rcases List.mem_append.mp ha with h | h
      · exact ih _ a h
      · rcases List.mem_singleton.mp h with rfl
        exact digCh_clean _

theorem fmt2_clean (q : ℚ) : ∀ a ∈ fmt2 q, cleanCh a = true := by
  intro a ha
  unfold fmt2 at ha
  simp only at ha
  set c := rndHalfEven (q * 100) with hc
  by_cases hneg : c < 0
  · rw [if_pos hneg] at ha
    rcases List.mem_cons.mp ha with rfl | ha'
    · decide
    · rcases List.mem_append.mp ha' with h | h
      · exact natCharsF_clean _ _ a h
      · rcases List.mem_cons.mp h with rfl | h'
        · decide
        · rcases List.mem_cons.mp h' with rfl | h''
          · exact digCh_clean _
          · rcases List.mem_singleton.mp h'' with rfl
            exact digCh_clean _
  · rw [if_neg hneg] at ha
    rcases List.mem_append.mp ha with h | h
    · exact natCharsF_clean _ _ a h
    · rcases List.mem_cons.mp h with rfl | h'
      · decide
      · rcases List.mem_cons.mp h' with rfl | h''
        · exact digCh_clean _
        · rcases List.mem_singleton.mp h'' with rfl
          exact digCh_clean _

theorem fmt2_ne_nil (q : ℚ) : fmt2 q ≠ [] := by
  unfold fmt2
  simp only
  split_ifs
  · simp
  · simp

theorem fmt2_no_nl (q : ℚ) : '\n' ∉ fmt2 q := by
  intro h
  have := fmt2_clean q _ h
  simp [cleanCh] at this

/-! ### Line splitting -/

theorem splitLines_ne_nil (l : LC) : splitLines l ≠ [] := by
  induction l with
  | nil => simp [splitLines]
  | cons c t ih =>
    simp only [splitLines]
    cases h : splitLines t with
    | nil => exact absurd h ih
    | cons hh tt =>
      by_cases hcn : c = '\n' <;> simp [hcn]

theorem splitLines_cons_eq (c : Char) {t : LC} {hh : LC} {tt : List LC}
    (h : splitLines t = hh :: tt) :
    splitLines (c :: t) = if c = '\n' then [] :: hh :: tt else (c :: hh) :: tt := by
  simp only [splitLines, h]

theorem splitLines_no_nl (l : LC) : ∀ p ∈ splitLines l, '\n' ∉ p := by
  induction l with
  | nil =>
    intro p hp
    rcases List.mem_singleton.mp hp with rfl
    simp
  | cons c t ih =>
    intro p hp
    cases h : splitLines t with
    | nil => exact absurd h (splitLines_ne_nil t)
    | cons hh tt =>
      rw [splitLines_cons_eq c h] at hp
      by_cases hcn : c = '\n'
      · rw [if_pos hcn] at hp
        rcases List.mem_cons.mp hp with rfl | hp'
        · simp
        · exact ih p (h ▸ hp')
      · rw [if_neg hcn] at hp
        rcases List.mem_cons.mp hp with rfl | hp'
        · intro hm
          rcases List.mem_cons.mp hm with h1 | h1
          · exact hcn h1.symm
          · exact ih hh (h ▸ List.mem_cons_self _ _) h1
        · exact ih p (h ▸ List.mem_cons_of_mem _ hp')

theorem splitLines_pure {p : LC} (h : '\n' ∉ p) : splitLines p = [p] := by
  induction p with
  | nil => rfl
  | cons c t ih =>
    have hc : c ≠ '\n' := fun hh => h (hh ▸ List.mem_cons_self _ _)
    have ht : '\n' ∉ t := fun hh => h (List.mem_cons_of_mem _ hh)
    rw [splitLines_cons_eq c (ih ht), if_neg hc]

theorem splitLines_append {p : LC} (t : LC) (h : '\n' ∉ p) :
    splitLines (p ++ '\n' :: t) = p :: splitLines t := by
  induction p with
  | nil =>
    cases hs : splitLines t with
    | nil => exact absurd hs (splitLines_ne_nil t)
    | cons hh tt =>
      rw [List.nil_append, splitLines_cons_eq '\n' hs, if_pos rfl]
  | cons c p' ih =>
    have hc : c ≠ '\n' := fun hh => h (hh ▸ List.mem_cons_self _ _)
    have hp' : '\n' ∉ p' := fun hh => h (List.mem_cons_of_mem _ hh)
    have hi := ih hp'
    cases hs : splitLines t with
    | nil => exact absurd hs (splitLines_ne_nil t)
    | cons hh tt =>
      rw [hs] at hi
      rw [List.cons_append, splitLines_cons_eq c hi, if_neg hc]

theorem splitLines_joinLines {ls : List LC} (hls : ls ≠ [])
    (h : ∀ p ∈ ls, '\n' ∉ p) : splitLines (joinLines ls) = ls := by
  induction ls with
  | nil => exact absurd rfl hls
  | cons l rest ih =>
    cases rest with
    | nil => exact splitLines_pure (h l (List.mem_cons_self _ _))
    | cons l2 rest' =>
      have hj : joinLines (l :: l2 :: rest') = l ++ '\n' :: joinLines (l2 :: rest') := rfl
      rw [hj, splitLines_append _ (h l (List.mem_cons_self _ _))]
      rw [ih (by simp) (fun p hp => h p (List.mem_cons_of_mem _ hp))]

/-! ### Character-content preservation through the corrector -/

theorem matchRun_decomp {o cl : LC} {p : Char → Bool} {l ds rest : LC}
    (h : matchRun o cl p l = some (ds, rest)) :
    l = o ++ (ds ++ (cl ++ rest)) := by
  unfold matchRun at h
  cases hd : dropPref o l with
  | none => simp [hd] at h
  | some l1 =>
    rw [hd] at h
    simp only at h
    by_cases he : (l1.takeWhile p).isEmpty
    · rw [if_pos he] at h; exact absurd h (by simp)
    · rw [if_neg he] at h
      cases hc : dropPref cl (l1.dropWhile p) with
      | none => rw [hc] at h; exact absurd h (by simp)
      | some l2 =>
        rw [hc] at h
        have hds : ds = l1.takeWhile p ∧ rest = l2 := by
          have := Option.some.inj h
          exact ⟨congrArg Prod.fst this.symm, congrArg Prod.snd this.symm⟩
        rw [dropPref_eq_some hd, hds.1, hds.2]
        congr 1
        conv_lhs => rw [← List.takeWhile_append_dropWhile (p := p) (l := l1)]
        rw [dropPref_eq_some hc]

theorem substRunF_mem {o cl : LC} {p : Char → Bool} {r : LC} :
    ∀ (f : ℕ) (l : LC) (a : Char), a ∈ substRunF o cl p r f l →
      a ∈ l ∨ a ∈ o ∨ a ∈ r ∨ a ∈ cl := by
  intro f
  induction f with
  | zero =>
    intro l a ha
    cases l with
    | nil => simp [substRunF] at ha
    | cons x xs => exact Or.inl ha
  | succ f ih =>
    intro l a ha
    cases l with
    | nil => simp [substRunF] at ha
    | cons x xs =>
      cases hm : matchRun o cl p (x :: xs) with
      | some pr =>
        obtain ⟨ds, rest⟩ := pr
        rw [substRunF, hm] at ha
        simp only [List.append_assoc, List.mem_append] at ha
        rcases ha with h | h | h | h
        · exact Or.inr (Or.inl h)
        · exact Or.inr (Or.inr (Or.inl h))
        · exact Or.inr (Or.inr (Or.inr h))
        · rcases ih rest a h with h' | h'
          · refine Or.inl ?_
            rw [matchRun_decomp hm]
            simp [h']
          · exact Or.inr h'
      | none =>
        rw [substRunF, hm] at ha
        rcases List.mem_cons.mp ha with rfl | h
        · exact Or.inl (List.mem_cons_self _ _)
        · rcases ih xs a h with h' | h'
          · exact Or.inl (List.mem_cons_of_mem _ h')
          · exact Or.inr h'

theorem substRun_no_nl {o cl : LC} {p : Char → Bool} {r l : LC}
    (ho : '\n' ∉ o) (hcl : '\n' ∉ cl) (hr : '\n' ∉ r) (hl : '\n' ∉ l) :
    '\n' ∉ substRun o cl p r l := by
  intro h
  rcases substRunF_mem _ _ _ h with h' | h' | h' | h'
  · exact hl h'
  · exact ho h'
  · exact hr h'
  · exact hcl h'

theorem matchQty_decomp {l at_ ds rest : LC}
    (h : matchQty l = some (at_, ds, rest)) :
    l = "<ItemQuantity".data ++
      (at_ ++ (">".data ++ (ds ++ ("</ItemQuantity>".data ++ rest)))) := by
  unfold matchQty at h
  cases hd : dropPref "<ItemQuantity".data l with
  | none => simp [hd] at h
  | some l1 =>
    rw [hd] at h
    simp only at h
    cases hg : dropPref ">".data (l1.dropWhile (fun c => !(c == '>'))) with
    | none => rw [hg] at h; exact absurd h (by simp)
    | some l3 =>
      rw [hg] at h
      simp only at h
      by_cases he : (l3.takeWhile isNumCh).isEmpty
      · rw [if_pos he] at h; exact absurd h (by simp)
      · rw [if_neg he] at h
        cases hc : dropPref "</ItemQuantity>".data (l3.dropWhile isNumCh) with
        | none => rw [hc] at h; exact absurd h (by simp)
        | some l5 =>
          rw [hc] at h
          have h3 := Option.some.inj h
          have ha : at_ = l1.takeWhile (fun c => !(c == '>')) :=
            (congrArg (fun x => x.1) h3).symm
          have hds : ds = l3.takeWhile isNumCh :=
            (congrArg (fun x => x.2.1) h3).symm
          have hrst : rest = l5 := (congrArg (fun x => x.2.2) h3).symm
          rw [dropPref_eq_some hd, ha, hds, hrst]
          have e1 : l1 = l1.takeWhile (fun c => !(c == '>')) ++
              (">".data ++ (l3.takeWhile isNumCh ++
                ("</ItemQuantity>".data ++ l5))) := by
            conv_lhs => rw [← List.takeWhile_append_dropWhile
              (p := fun c => !(c == '>')) (l := l1)]
            rw [dropPref_eq_some hg]
            congr 2
            conv_lhs => rw [← List.takeWhile_append_dropWhile
              (p := isNumCh) (l := l3)]
            rw [dropPref_eq_some hc]
          rw [← e1]

theorem substQtyF_mem {r : LC} :
    ∀ (f : ℕ) (l : LC) (a : Char), a ∈ substQtyF r f l →
      a ∈ l ∨ a ∈ r ∨ a ∈ "<ItemQuantity>".data ∨ a ∈ "</ItemQuantity>".data := by
  intro f
  induction f with
  | zero =>
    intro l a ha
    cases l with
    | nil => simp [substQtyF] at ha
    | cons x xs => exact Or.inl ha
  | succ f ih =>
    intro l a ha
    cases l with
    | nil => simp [substQtyF] at ha
    | cons x xs =>
      cases hm : matchQty (x :: xs) with
      | some pr =>
        obtain ⟨at_, ds, rest⟩ := pr
        rw [substQtyF, hm] at ha
        have hdec := matchQty_decomp hm
        have hsub : "<ItemQuantity>".data = "<ItemQuantity".data ++ ['>'] := by decide
        rcases List.mem_append.mp ha with h | h
        · rcases List.mem_append.mp h with h | h
          · rcases List.mem_append.mp h with h | h
            · rcases List.mem_append.mp h with h | h
              · exact Or.inr (Or.inr (Or.inl (hsub ▸ List.mem_append_left _ h)))
              · refine Or.inl ?_
                rw [hdec]
                simp [h]
            · rcases List.mem_cons.mp h with rfl | h
              · exact Or.inr (Or.inr (Or.inl (by decide)))
              · exact Or.inr (Or.inl h)
          · exact Or.inr (Or.inr (Or.inr h))
        · rcases ih rest a h with h' | h'
          · refine Or.inl ?_
            rw [hdec]
            simp [h']
          · exact Or.inr h'
      | none =>
        rw [substQtyF, hm] at ha
        rcases List.mem_cons.mp ha with rfl | h
        · exact Or.inl (List.mem_cons_self _ _)
        · rcases ih xs a h with h' | h'
          · exact Or.inl (List.mem_cons_of_mem _ h')
          · exact Or.inr h'

theorem substQty_no_nl {r l : LC} (hr : '\n' ∉ r) (hl : '\n' ∉ l) :
    '\n' ∉ substQty r l := by
  intro h
  rcases substQtyF_mem _ _ _ h with h' | h' | h' | h'
  · exact hl h'
  · exact hr h'
  · exact (by decide : '\n' ∉ "<ItemQuantity>".data) h'
  · exact (by decide : '\n' ∉ "</ItemQuantity>".data) h'

theorem mapLines_len_mem {g : LC → Option LC} :
    ∀ {ls ls' : List LC}, mapLines g ls = some ls' →
      ls'.length = ls.length ∧ ∀ y ∈ ls', ∃ x ∈ ls, g x = some y := by
  intro ls
  induction ls with
  | nil =>
    intro ls' h
    simp only [mapLines] at h
    rcases Option.some.inj h with rfl
    exact ⟨rfl, by simp⟩
  | cons x xs ih =>
    intro ls' h
    simp only [mapLines] at h
    cases hg : g x with
    | none => rw [hg] at h; exact absurd h (by simp)
    | some y =>
      rw [hg] at h
      cases hm : mapLines g xs with
      | none => rw [hm] at h; exact absurd h (by simp)
      | some ys =>
        rw [hm] at h
        simp only [Option.map_some'] at h
        rcases Option.some.inj h with rfl
        obtain ⟨hlen, hmem⟩ := ih hm
        refine ⟨by simp [hlen], ?_⟩
        intro z hz
        rcases List.mem_cons.mp hz with rfl | hz'
        · exact ⟨x, List.mem_cons_self _ _, hg⟩
        · obtain ⟨w, hw, hgw⟩ := hmem z hz'
          exact ⟨w, List.mem_cons_of_mem _ hw, hgw⟩

theorem correct_line_no_nl {d : Analysis} {corr : Corrections} {line out : LC}
    (hl : '\n' ∉ line) (hper : '\n' ∉ strOf corr.cper)
    (h : correct_line d corr line = some out) : '\n' ∉ out := by
  have h1 : '\n' ∉ substRun "<TotalCharges>".data "</TotalCharges>".data isNumCh
      (fmt2 corr.ctc) line :=
    substRun_no_nl (by decide) (by decide) (fmt2_no_nl _) hl
  have h2 : '\n' ∉ substRun "<TotalTax>".data "</TotalTax>".data isNumCh
      (fmt2 (corr.ctc * (20/100))) _ :=
    substRun_no_nl (by decide) (by decide) (fmt2_no_nl _) h1
  have h3 : '\n' ∉ substRun "<TotalAmount>".data "</TotalAmount>".data isNumCh
      (fmt2 (corr.ctc * (120/100))) _ :=
    substRun_no_nl (by decide) (by decide) (fmt2_no_nl _) h2
  have h4 : '\n' ∉ substRun "owner=\"NbHeuresFacturees\">".data "<".data isNumCh
      (fmt2 corr.chrs) _ :=
    substRun_no_nl (by decide) (by decide) (fmt2_no_nl _) h3
  have h5 : '\n' ∉ substRun "owner=\"DEB_PER\">".data "<".data (fun c => !(c == '<'))
      (strOf corr.cper) _ :=
    substRun_no_nl (by decide) (by decide) hper h4
  have h6 : '\n' ∉ substRun "owner=\"FIN_PER\">".data "<".data (fun c => !(c == '<'))
      (strOf corr.cper) _ :=
    substRun_no_nl (by decide) (by decide) hper h5
  simp only [correct_line] at h
  by_cases hc : (containsSub "ItemQuantity".data line &&
      containsSub "uom=\"HUR\"".data line) = true
  · rw [if_pos hc] at h
    cases hfq : findQty line with
    | none =>
      rw [hfq] at h
      dsimp only at h
      simp only [Option.map_some'] at h
      obtain rfl := Option.some.inj h
      split
      · decide
      · exact h6
    | some ds =>
      rw [hfq] at h
      dsimp only at h
      cases hp : parsePyFloat ds with
      | none => rw [hp] at h; simp at h
      | some oldq =>
        rw [hp] at h
        dsimp only at h
        by_cases htc : d.total_charges = 0
        · rw [if_pos htc] at h; simp at h
        · rw [if_neg htc] at h
          simp only [Option.map_some'] at h
          obtain rfl := Option.some.inj h
          split
          · decide
          · exact substQty_no_nl (fmt2_no_nl _) h6
  · rw [if_neg hc] at h
    simp only [Option.map_some'] at h
    obtain rfl := Option.some.inj h
    split
    · decide
    · exact h6

/-- Number of lines of a text, as the corrector counts them. -/
def numLines (t : LC) : ℕ := (splitLines t).length

theorem fix_count {d : Analysis} {xml out : LC}
    (hper : '\n' ∉ strOf d.period_start)
    (h : fix d xml = some out) : numLines out = numLines xml := by
  unfold fix at h
  cases hI : d.has_issue with
  | false =>
    rw [hI] at h
    simp only [Bool.not_false, if_true] at h
    rw [← Option.some.inj h]
  | true =>
    rw [hI] at h
    simp only [Bool.not_true, Bool.false_eq_true, if_false] at h
    cases hm : mapLines
        (correct_line d
          ⟨d.total_charges *
            (if d.invoice_hours > 0 then d.raf_hours / d.invoice_hours else 1),
           d.raf_hours, d.period_start⟩)
        (splitLines xml) with
    | none => rw [hm] at h; simp at h
    | some ls' =>
      rw [hm] at h
      simp only [Option.map_some'] at h
      obtain rfl := Option.some.inj h
      obtain ⟨hlen, hmem⟩ := mapLines_len_mem hm
      have hnl : ∀ y ∈ ls', '\n' ∉ y := by
        intro y hy
        obtain ⟨x, hx, hgx⟩ := hmem y hy
        exact correct_line_no_nl (splitLines_no_nl xml x hx) hper hgx
      have hne : ls' ≠ [] := by
        intro hcon
        rw [hcon] at hlen
        exact splitLines_ne_nil xml (List.length_eq_zero.mp hlen.symm)
      unfold numLines
      rw [splitLines_joinLines hne hnl, hlen]

/-! ### The corrector on total-tag lines (for the monetary rewrite claims) -/

/-- The correction ratio, `rafHours / invoiceHours` when positive hours, else 1. -/
def ratioOf (d : Analysis) : ℚ :=
  if d.invoice_hours > 0 then d.raf_hours / d.invoice_hours else 1

def lineTC : LC := "<TotalCharges>854.76</TotalCharges>".data

def lineTax : LC := "<TotalTax>170.95</TotalTax>".data

def lineAmt : LC := "<TotalAmount>1025.71</TotalAmount>".data

/-- A three-line document holding the three monetary totals. -/
def docTotals : LC := lineTC ++ '\n' :: lineTax ++ '\n' :: lineAmt

theorem correct_line_lineTC (d : Analysis) (corr : Corrections) :
    correct_line d corr lineTC =
      some ("<TotalCharges>".data ++ (fmt2 corr.ctc ++ "</TotalCharges>".data)) := by
  have e1 : substRun "<TotalCharges>".data "</TotalCharges>".data isNumCh
      (fmt2 corr.ctc) lineTC =
      "<TotalCharges>".data ++ (fmt2 corr.ctc ++ "</TotalCharges>".data) := by
    have e0 : substRun "<TotalCharges>".data "</TotalCharges>".data isNumCh
        (fmt2 corr.ctc) lineTC =
        (("<TotalCharges>".data ++ fmt2 corr.ctc) ++ "</TotalCharges>".data) ++ [] := by
      with_unfolding_all rfl
    rw [e0, List.append_nil, List.append_assoc]
  have e2 : substRun "<TotalTax>".data "</TotalTax>".data isNumCh
      (fmt2 (corr.ctc * (20/100)))
      ("<TotalCharges>".data ++ (fmt2 corr.ctc ++ "</TotalCharges>".data)) =
      "<TotalCharges>".data ++ (fmt2 corr.ctc ++ "</TotalCharges>".data) :=
    substRun_skip_glue (by decide) (by decide) (fmt2_clean _) (fmt2_ne_nil _)
      (by decide) (by decide)
  have e3 : substRun "<TotalAmount>".data "</TotalAmount>".data isNumCh
      (fmt2 (corr.ctc * (120/100)))
      ("<TotalCharges>".data ++ (fmt2 corr.ctc ++ "</TotalCharges>".data)) =
      "<TotalCharges>".data ++ (fmt2 corr.ctc ++ "</TotalCharges>".data) :=
    substRun_skip_glue (by decide) (by decide) (fmt2_clean _) (fmt2_ne_nil _)
      (by decide) (by decide)
  have e4 : substRun "owner=\"NbHeuresFacturees\">".data "<".data isNumCh
      (fmt2 corr.chrs)
      ("<TotalCharges>".data ++ (fmt2 corr.ctc ++ "</TotalCharges>".data)) =
      "<TotalCharges>".data ++ (fmt2 corr.ctc ++ "</TotalCharges>".data) :=
    substRun_skip_glue (by decide) (by decide) (fmt2_clean _) (fmt2_ne_nil _)
      (by decide) (by decide)
  have e5 : substRun "owner=\"DEB_PER\">".data "<".data (fun c => !(c == '<'))
      (strOf corr.cper)
      ("<TotalCharges>".data ++ (fmt2 corr.ctc ++ "</TotalCharges>".data)) =
      "<TotalCharges>".data ++ (fmt2 corr.ctc ++ "</TotalCharges>".data) :=
    substRun_skip_glue (by decide) (by decide) (fmt2_clean _) (fmt2_ne_nil _)
      (by decide) (by decide)
  have e6 : substRun "owner=\"FIN_PER\">".data "<".data (fun c => !(c == '<'))
      (strOf corr.cper)
      ("<TotalCharges>".data ++ (fmt2 corr.ctc ++ "</TotalCharges>".data)) =
      "<TotalCharges>".data ++ (fmt2 corr.ctc ++ "</TotalCharges>".data) :=
    substRun_skip_glue (by decide) (by decide) (fmt2_clean _) (fmt2_ne_nil _)
      (by decide) (by decide)
  simp only [correct_line]
  rw [e1, e2, e3, e4, e5, e6]
  have hq : (containsSub "ItemQuantity".data lineTC &&
      containsSub "uom=\"HUR\"".data lineTC) = false := by decide
  rw [hq]
  simp only [Bool.false_eq_true, if_false, Option.map_some']
  have hm1 : ([("Supplémentaire".data : LC), "RTT".data, "HS 125".data].any
      (fun x => containsSub x lineTC)) = false := by decide
  rw [hm1]
  simp only [Bool.and_false, Bool.false_and, Bool.false_eq_true, if_false]

theorem correct_line_lineTax (d : Analysis) (corr : Corrections) :
    correct_line d corr lineTax =
      some ("<TotalTax>".data ++ (fmt2 (corr.ctc * (20/100)) ++ "</TotalTax>".data)) := by
  have e1 : substRun "<TotalCharges>".data "</TotalCharges>".data isNumCh
      (fmt2 corr.ctc) lineTax = lineTax :=
    substRun_skip (by decide)
  have e2 : substRun "<TotalTax>".data "</TotalTax>".data isNumCh
      (fmt2 (corr.ctc * (20/100))) lineTax =
      "<TotalTax>".data ++ (fmt2 (corr.ctc * (20/100)) ++ "</TotalTax>".data) := by
    have e0 : substRun "<TotalTax>".data "</TotalTax>".data isNumCh
        (fmt2 (corr.ctc * (20/100))) lineTax =
        (("<TotalTax>".data ++ fmt2 (corr.ctc * (20/100))) ++ "</TotalTax>".data) ++ [] := by
      with_unfolding_all rfl
    rw [e0, List.append_nil, List.append_assoc]
  have e3 : substRun "<TotalAmount>".data "</TotalAmount>".data isNumCh
      (fmt2 (corr.ctc * (120/100)))
      ("<TotalTax>".data ++ (fmt2 (corr.ctc * (20/100)) ++ "</TotalTax>".data)) =
      "<TotalTax>".data ++ (fmt2 (corr.ctc * (20/100)) ++ "</TotalTax>".data) :=
    substRun_skip_glue (by decide) (by decide) (fmt2_clean _) (fmt2_ne_nil _)
      (by decide) (by decide)
  have e4 : substRun "owner=\"NbHeuresFacturees\">".data "<".data isNumCh
      (fmt2 corr.chrs)
      ("<TotalTax>".data ++ (fmt2 (corr.ctc * (20/100)) ++ "</TotalTax>".data)) =
      "<TotalTax>".data ++ (fmt2 (corr.ctc * (20/100)) ++ "</TotalTax>".data) :=
    substRun_skip_glue (by decide) (by decide) (fmt2_clean _) (fmt2_ne_nil _)
      (by decide) (by decide)
  have e5 : substRun "owner=\"DEB_PER\">".data "<".data (fun c => !(c == '<'))
      (strOf corr.cper)
      ("<TotalTax>".data ++ (fmt2 (corr.ctc * (20/100)) ++ "</TotalTax>".data)) =
      "<TotalTax>".data ++ (fmt2 (corr.ctc * (20/100)) ++ "</TotalTax>".data) :=
    substRun_skip_glue (by decide) (by decide) (fmt2_clean _) (fmt2_ne_nil _)
      (by decide) (by decide)
  have e6 : substRun "owner=\"FIN_PER\">".data "<".data (fun c => !(c == '<'))
      (strOf corr.cper)
      ("<TotalTax>".data ++ (fmt2 (corr.ctc * (20/100)) ++ "</TotalTax>".data)) =
      "<TotalTax>".data ++ (fmt2 (corr.ctc * (20/100)) ++ "</TotalTax>".data) :=
    substRun_skip_glue (by decide) (by decide) (fmt2_clean _) (fmt2_ne_nil _)
      (by decide) (by decide)
  simp only [correct_line]
  rw [e1, e2, e3, e4, e5, e6]
  have hq : (containsSub "ItemQuantity".data lineTax &&
      containsSub "uom=\"HUR\"".data lineTax) = false := by decide
  rw [hq]
  simp only [Bool.false_eq_true, if_false, Option.map_some']
  have hm1 : ([("Supplémentaire".data : LC), "RTT".data, "HS 125".data].any
      (fun x => containsSub x lineTax)) = false := by decide
  rw [hm1]
  simp only [Bool.and_false, Bool.false_and, Bool.false_eq_true, if_false]

theorem correct_line_lineAmt (d : Analysis) (corr : Corrections) :
    correct_line d corr lineAmt =
      some ("<TotalAmount>".data ++
        (fmt2 (corr.ctc * (120/100)) ++ "</TotalAmount>".data)) := by
  have e1 : substRun "<TotalCharges>".data "</TotalCharges>".data isNumCh
      (fmt2 corr.ctc) lineAmt = lineAmt :=
    substRun_skip (by decide)
  have e2 : substRun "<TotalTax>".data "</TotalTax>".data isNumCh
      (fmt2 (corr.ctc * (20/100))) lineAmt = lineAmt :=
    substRun_skip (by decide)
  have e3 : substRun "<TotalAmount>".data "</TotalAmount>".data isNumCh
      (fmt2 (corr.ctc * (120/100))) lineAmt =
      "<TotalAmount>".data ++ (fmt2 (corr.ctc * (120/100)) ++ "</TotalAmount>".data) := by
    have e0 : substRun "<TotalAmount>".data "</TotalAmount>".data isNumCh
        (fmt2 (corr.ctc * (120/100))) lineAmt =
        (("<TotalAmount>".data ++ fmt2 (corr.ctc * (120/100))) ++
          "</TotalAmount>".data) ++ [] := by
      with_unfolding_all rfl
    rw [e0, List.append_nil, List.append_assoc]
  have e4 : substRun "owner=\"NbHeuresFacturees\">".data "<".data isNumCh
      (fmt2 corr.chrs)
      ("<TotalAmount>".data ++ (fmt2 (corr.ctc * (120/100)) ++ "</TotalAmount>".data)) =
      "<TotalAmount>".data ++ (fmt2 (corr.ctc * (120/100)) ++ "</TotalAmount>".data) :=
    substRun_skip_glue (by decide) (by decide) (fmt2_clean _) (fmt2_ne_nil _)
      (by decide) (by decide)
  have e5 : substRun "owner=\"DEB_PER\">".data "<".data (fun c => !(c == '<'))
      (strOf corr.cper)
      ("<TotalAmount>".data ++ (fmt2 (corr.ctc * (120/100)) ++ "</TotalAmount>".data)) =
      "<TotalAmount>".data ++ (fmt2 (corr.ctc * (120/100)) ++ "</TotalAmount>".data) :=
    substRun_skip_glue (by decide) (by decide) (fmt2_clean _) (fmt2_ne_nil _)
      (by decide) (by decide)
  have e6 : substRun "owner=\"FIN_PER\">".data "<".data (fun c => !(c == '<'))
      (strOf corr.cper)
      ("<TotalAmount>".data ++ (fmt2 (corr.ctc * (120/100)) ++ "</TotalAmount>".data)) =
      "<TotalAmount>".data ++ (fmt2 (corr.ctc * (120/100)) ++ "</TotalAmount>".data) :=
    substRun_skip_glue (by decide) (by decide) (fmt2_clean _) (fmt2_ne_nil _)
      (by decide) (by decide)
  simp only [correct_line]
  rw [e1, e2, e3, e4, e5, e6]
  have hq : (containsSub "ItemQuantity".data lineAmt &&
      containsSub "uom=\"HUR\"".data lineAmt) = false := by decide
  rw [hq]
  simp only [Bool.false_eq_true, if_false, Option.map_some']
  have hm1 : ([("Supplémentaire".data : LC), "RTT".data, "HS 125".data].any
      (fun x => containsSub x lineAmt)) = false := by decide
  rw [hm1]
  simp only [Bool.and_false, Bool.false_and, Bool.false_eq_true, if_false]

/-- C1 core: `fix` on a document carrying the three total tags, for an
arbitrary flagged analysis record. -/
theorem fix_docTotals (d : Analysis) (hI : d.has_issue = true) :
    fix d docTotals = some
      (("<TotalCharges>".data ++
          (fmt2 (d.total_charges * ratioOf d) ++ "</TotalCharges>".data)) ++ '\n' ::
        (("<TotalTax>".data ++
          (fmt2 (d.total_charges * ratioOf d * (20/100)) ++ "</TotalTax>".data)) ++ '\n' ::
        ("<TotalAmount>".data ++
          (fmt2 (d.total_charges * ratioOf d * (120/100)) ++ "</TotalAmount>".data)))) := by
  unfold fix
  rw [hI]
  simp only [Bool.not_true, Bool.false_eq_true, if_false]
  have hsplit : splitLines docTotals = [lineTC, lineTax, lineAmt] := by decide
  rw [hsplit]
  simp only [mapLines, correct_line_lineTC, correct_line_lineTax,
    correct_line_lineAmt, Option.map_some']
  simp only [joinLines]
  with_unfolding_all rfl

/-! ### Detection -/

theorem detect_spec (d : Analysis) (h0 : d.has_issue = false)
    (hm : d.issue_message = []) :
    ((detectIssues d).has_issue = true ↔
      (|d.raf_hours - d.invoice_hours| > 1/100 ∨ singleDayCond d = true)) ∧
    (detectIssues d).issue_message =
      (if |d.raf_hours - d.invoice_hours| > 1/100 then ecartMsg d else []) ++
      (if singleDayCond d = true then " | Semaine à cheval détectée".data else []) := by
  have hsd : ∀ (b : Bool) (m : LC),
      singleDayCond { d with has_issue := b, issue_message := m } =
        singleDayCond d := fun b m => rfl
  unfold detectIssues
  dsimp only
  by_cases h1 : |d.raf_hours - d.invoice_hours| > 1/100
  · rw [if_pos h1, hsd true (ecartMsg d)]
    by_cases h2 : singleDayCond d = true
    · rw [if_pos h2]
      constructor
      · exact ⟨fun _ => Or.inl h1, fun _ => rfl⟩
      · show ecartMsg d ++ _ = _
        rw [if_pos h1, if_pos h2]
    · rw [if_neg h2]
      constructor
      · exact ⟨fun _ => Or.inl h1, fun _ => rfl⟩
      · show ecartMsg d = _
        rw [if_pos h1, if_neg h2, List.append_nil]
  · rw [if_neg h1]
    by_cases h2 : singleDayCond d = true
    · rw [if_pos h2]
      constructor
      · exact ⟨fun _ => Or.inr h2, fun _ => rfl⟩
      · show d.issue_message ++ _ = _
        rw [if_neg h1, if_pos h2, hm, List.nil_append]
    · rw [if_neg h2]
      constructor
      · constructor
        · intro hcon
          rw [h0] at hcon
          exact absurd hcon (by simp)
        · intro hor
          rcases hor with hA | hB
          · exact absurd hA h1
          · exact absurd hB h2
      · rw [if_neg h1, if_neg h2, hm]
        rfl

theorem detect_id (d : Analysis)
    (h1 : ¬ (|d.raf_hours - d.invoice_hours| > 1/100))
    (h2 : ¬ (singleDayCond d = true)) : detectIssues d = d := by
  unfold detectIssues
  rw [if_neg h1, if_neg h2]

theorem fix_noop (d : Analysis) (xml : LC) (h : d.has_issue = false) :
    fix d xml = some xml := by
  unfold fix
  rw [h]
  rfl

/-! ### Concrete documents and records used by the claims -/

/-- A document with six hour lines whose per-line two-decimal rounding
drifts invoiced hours by 0.02 after correction. -/
def docRound : LC := ("<Envelope>\n<TimeCard><PeriodStartDate>2024-08-26</PeriodStartDate><PeriodEndDate>2024-08-30</PeriodEndDate><TimeInterval type=\"heures\"><Duration>5</Duration></TimeInterval></TimeCard>\n<Line><Description>heure</Description><ItemQuantity uom=\"HUR\">5</ItemQuantity><Charge><Total>100</Total></Charge></Line>\n<Line><Description>heure</Description><ItemQuantity uom=\"HUR\">5</ItemQuantity><Charge><Total>100</Total></Charge></Line>\n<Line><Description>heure</Description><ItemQuantity uom=\"HUR\">5</ItemQuantity><Charge><Total>100</Total></Charge></Line>\n<Line><Description>heure</Description><ItemQuantity uom=\"HUR\">5</ItemQuantity><Charge><Total>100</Total></Charge></Line>\n<Line><Description>heure</Description><ItemQuantity uom=\"HUR\">5</ItemQuantity><Charge><Total>100</Total></Charge></Line>\n<Line><Description>heure</Description><ItemQuantity uom=\"HUR\">5</ItemQuantity><Charge><Total>100</Total></Charge></Line>\n<TotalCharges>600</TotalCharges>\n<TotalTax>120</TotalTax>\n<TotalAmount>720</TotalAmount>\n</Envelope>").data

/-- A document whose single hour line is corrected exactly, so the second
pass detects nothing. -/
def docOneLine : LC := ("<Envelope>\n<TimeCard><PeriodStartDate>2024-08-26</PeriodStartDate><PeriodEndDate>2024-08-30</PeriodEndDate><TimeInterval type=\"heures\"><Duration>16</Duration></TimeInterval></TimeCard>\n<Line><Description>heure</Description><ItemQuantity uom=\"HUR\">38</ItemQuantity><Charge><Total>854.76</Total></Charge></Line>\n<TotalCharges>854.76</TotalCharges>\n<TotalTax>170.95</TotalTax>\n<TotalAmount>1025.71</TotalAmount>\n</Envelope>").data

/-- A document whose authoritative PeriodStartDate text spans two lines. -/
def docNL : LC := ("<Envelope><TimeCard><PeriodStartDate>2024-08-26\nX</PeriodStartDate><TimeInterval type=\"heures\"><Duration>5</Duration></TimeInterval></TimeCard>\n<A owner=\"DEB_PER\">old</A></Envelope>").data

/-- The worked example's fact record: single-day period, 8 RAF hours,
38 invoiced hours, 854.76 net. -/
def d9 : Analysis :=
  { invoice_id := "FAC001".data
    period_start := some "2024-08-30".data
    period_end := some "2024-08-30".data
    raf_hours := 8
    invoice_hours := 38
    lines := []
    total_charges := 85476/100
    total_tax := 17095/100
    total_amount := 102571/100
    vat_rate := 20
    has_issue := true
    issue_message := [] }

/-- A flagged record with `total_charges = 0`. -/
def dZero : Analysis :=
  { initData "X".data with has_issue := true, raf_hours := 8, invoice_hours := 38 }

/-- A single line carrying an hour-unit ItemQuantity. -/
def lineHUR : LC := "<ItemQuantity uom=\"HUR\">5</ItemQuantity>".data

/-! ### TimeInterval accumulation -/

theorem processTI_single (d : Analysis) (ty txt : LC) (q : ℚ)
    (hp : parsePyFloat txt = some q) (hne : txt ≠ []) :
    processTimeInterval d
      (XTree.node "TimeInterval".data [("type".data, ty)] none
        [XTree.node "Duration".data [] (some txt) []]) =
      some { d with raf_hours := d.raf_hours +
        (if containsSub "heure".data (ty.map Char.toLower) then q else 0) } := by
  have htb : tb (some txt) = true := by
    cases txt with
    | nil => exact absurd rfl hne
    | cons a t => rfl
  unfold processTimeInterval
  have hattr : (getAttr (XTree.node "TimeInterval".data [("type".data, ty)] none
      [XTree.node "Duration".data [] (some txt) []]) "type".data).getD [] = ty := rfl
  rw [hattr]
  dsimp only [XTree.children, XTree.tag, XTree.text]
  simp only [List.foldlM]
  have htag : tagEnds "Duration".data "Duration".data = true := rfl
  rw [htag, htb]
  simp only [if_true, Bool.true_and, eq_self_iff_true]
  by_cases hC : containsSub "heure".data (ty.map Char.toLower) = true
  · rw [if_pos hC]
    simp only [Option.getD_some]
    rw [hp, if_pos hC]
    rfl
  · rw [if_neg hC, if_neg hC, add_zero]
    rfl

/-! ### Remaining fixtures -/

def d1w : Analysis :=
  { initData "".data with
      has_issue := true
      raf_hours := 5
      invoice_hours := 40
      total_charges := 100 }

def d3w : Analysis :=
  { initData "".data with
      raf_hours := 38
      invoice_hours := 38
      period_start := some "2024-08-26".data
      period_end := some "2024-08-30".data }

def d5w : Analysis :=
  { initData "".data with
      raf_hours := 8
      invoice_hours := 38
      period_start := some "2024-08-30".data
      period_end := some "2024-08-30".data }

/-- A detector oracle claiming UTF-8 with high confidence. -/
def det0 : List ℕ → Option LC × ℚ := fun _ => (some "utf-8".data, 9/10)

/-- Bytes declaring latin-1, containing the latin-1 byte 0xE9 (not valid
UTF-8). -/
def bW8 : List ℕ :=
  "<?xml version=\"1.0\" encoding=\"latin-1\"?><r>".data.map Char.toNat ++
    [0xE9] ++ "</r>".data.map Char.toNat

def bGood : List ℕ := "<a>x</a>".data.map Char.toNat

def docTotalsFixed : LC :=
  "<TotalCharges>179.95</TotalCharges>\n<TotalTax>35.99</TotalTax>\n<TotalAmount>215.94</TotalAmount>".data

def docTotalsClaimed : LC :=
  "<TotalCharges>180.05</TotalCharges>\n<TotalTax>36.01</TotalTax>\n<TotalAmount>216.06</TotalAmount>".data

def tiRegularHours : XTree :=
  XTree.node "TimeInterval".data [("type".data, "Regular hours".data)] none
    [XTree.node "Duration".data [] (some "5".data) []]

/-! ### Claim theorems -/

/-- C2: the per-line corrector is not total — with `totalCharges = 0` and a
line containing an hour-unit `ItemQuantity`, the `Decimal` division in the
quantity rescaling raises (modelled `none`), so `fix` raises instead of
returning a string, contrary to the claim. -/
theorem C2_zero_charges_exception : fix dZero lineHUR = none := by
  with_unfolding_all decide

/-- C4 counterexample: on `docRound`, the first analyze+fix pass leaves a
document that detection flags again (per-line two-decimal rounding of the
scaled quantities moved invoiced hours by 0.02), and a second analyze+fix
changes `TotalCharges` again — the monetary totals are not stable. -/
theorem C4_second_pass_changes_totals :
    ((analyzeFix docRound).bind analyze).map Analysis.has_issue = some true ∧
    (((analyzeFix docRound).bind analyzeFix).bind analyze).map Analysis.total_charges ≠
      ((analyzeFix docRound).bind analyze).map Analysis.total_charges :=
  ⟨by with_unfolding_all decide, by with_unfolding_all decide⟩

/-- C4 (amended): the second fix is a no-op precisely on those corrected
documents that re-detection leaves unflagged; re-detection can flag again,
because the rescaled quantities are rounded to two decimals per line. -/
theorem C4_second_fix_noop (t u : LC) (h : analyzeFix t = some u)
    (h2 : (analyze u).map Analysis.has_issue = some false) :
    analyzeFix u = some u := by
  unfold analyzeFix
  cases ha : analyze u with
  | none => rw [ha] at h2; simp at h2
  | some d =>
    rw [ha] at h2
    simp only [Option.map_some'] at h2
    show fix d u = some u
    exact fix_noop d u (Option.some.inj h2)

/-- The corrected form of `docOneLine` after the first pass. -/
def docOneFixed : LC := ("<Envelope>\n<TimeCard><PeriodStartDate>2024-08-26</PeriodStartDate><PeriodEndDate>2024-08-30</PeriodEndDate><TimeInterval type=\"heures\"><Duration>16</Duration></TimeInterval></TimeCard>\n<Line><Description>heure</Description><ItemQuantity uom=\"HUR\">16.00</ItemQuantity><Charge><Total>854.76</Total></Charge></Line>\n<TotalCharges>359.90</TotalCharges>\n<TotalTax>71.98</TotalTax>\n<TotalAmount>431.88</TotalAmount>\n</Envelope>").data

/-- Witness for C4 (amended): `docOneLine`'s hour line rescales exactly, so
the corrected document re-analyzes clean and the second fix is a no-op. -/
theorem C4_second_fix_noop_witness :
    analyzeFix docOneLine = some docOneFixed ∧
    (analyze docOneFixed).map Analysis.has_issue = some false ∧
    analyzeFix docOneFixed = some docOneFixed :=
  ⟨by with_unfolding_all decide, by with_unfolding_all decide,
    C4_second_fix_noop docOneLine docOneFixed (by with_unfolding_all decide)
      (by with_unfolding_all decide)⟩

/-- C5: starting from an unflagged record with an empty message, detection
sets `hasIssue` exactly when the hour gap exceeds 0.01 or the single-day
heuristic fires (both bounds present and parsing, equal, and more than 12
invoiced hours); the gap rule writes the two-decimal "Écart détecté"
message and the heuristic appends " | Semaine à cheval détectée" to it;
unparseable period strings simply leave the heuristic silent. -/
theorem C5_detection_iff (d : Analysis) (h0 : d.has_issue = false)
    (hm : d.issue_message = []) :
    ((detectIssues d).has_issue = true ↔
      (|d.raf_hours - d.invoice_hours| > 1/100 ∨ singleDayCond d = true)) ∧
    (detectIssues d).issue_message =
      (if |d.raf_hours - d.invoice_hours| > 1/100 then ecartMsg d else []) ++
      (if singleDayCond d = true then " | Semaine à cheval détectée".data else []) :=
  detect_spec d h0 hm

/-- Witness for C5: both rules fire on the worked example's record. -/
theorem C5_detection_iff_witness :
    d5w.has_issue = false ∧ d5w.issue_message = [] ∧
    (((detectIssues d5w).has_issue = true ↔
      (|d5w.raf_hours - d5w.invoice_hours| > 1/100 ∨ singleDayCond d5w = true)) ∧
    (detectIssues d5w).issue_message =
      (if |d5w.raf_hours - d5w.invoice_hours| > 1/100 then ecartMsg d5w else []) ++
      (if singleDayCond d5w = true then " | Semaine à cheval détectée".data else [])) :=
  ⟨rfl, rfl, C5_detection_iff d5w rfl rfl⟩

/-- C6 counterexample: a `PeriodStartDate` whose text spans two lines (legal
XML) makes the DEB_PER substitution insert a line break: the corrected
document has 4 lines where the input had 3. -/
theorem C6_newline_period_cx :
    ((analyze docNL).bind (fun d => fix d docNL)).map numLines = some 4 ∧
    numLines docNL = 3 :=
  ⟨by with_unfolding_all decide, by decide⟩

/-- C6 (amended): when the authoritative `periodStart` contains no line
break, every document `fix` successfully corrects keeps exactly the same
number of lines (substitutions insert no line break and the deletion rule
replaces a line's content with a one-line comment). -/
theorem C6_line_count_preserved (d : Analysis) (xml out : LC)
    (hper : '\n' ∉ strOf d.period_start)
    (h : fix d xml = some out) : numLines out = numLines xml :=
  fix_count hper h

/-- Witness for C6: the worked-example record over the totals document. -/
theorem C6_line_count_preserved_witness :
    ('\n' ∉ strOf d9.period_start) ∧ fix d9 docTotals = some docTotalsFixed ∧
    numLines docTotalsFixed = numLines docTotals :=
  ⟨by decide, by with_unfolding_all decide,
    C6_line_count_preserved d9 docTotals docTotalsFixed (by decide)
      (by with_unfolding_all decide)⟩

/-- C7 counterexample: a TimeInterval typed "Regular hours" — whose label
contains "hour" but not "heure" — adds nothing to `rafHours`, refuting the
claim that "hour" labels are accumulated. -/
theorem C7_hour_label_not_counted :
    processTimeInterval (initData "X".data) tiRegularHours =
      some (initData "X".data) ∧
    containsSub "hour".data ("Regular hours".data.map Char.toLower) = true ∧
    (initData "X".data).raf_hours = 0 :=
  ⟨by with_unfolding_all decide, by decide, rfl⟩

/-- C7 (amended): a TimeInterval's Duration is added to `rafHours` exactly
when the `type` attribute value contains "heure" case-insensitively;
labels that only contain "hour" are not accumulated. -/
theorem C7_heure_label_only (d : Analysis) (ty txt : LC) (q : ℚ)
    (hp : parsePyFloat txt = some q) (hne : txt ≠ []) :
    processTimeInterval d
      (XTree.node "TimeInterval".data [("type".data, ty)] none
        [XTree.node "Duration".data [] (some txt) []]) =
      some { d with raf_hours := d.raf_hours +
        (if containsSub "heure".data (ty.map Char.toLower) then q else 0) } :=
  processTI_single d ty txt q hp hne

/-- Witness for C7: a "Heures normales" interval of 8 hours. -/
theorem C7_heure_label_only_witness :
    parsePyFloat "8.0".data = some 8 ∧ "8.0".data ≠ [] ∧
    processTimeInterval (initData "".data)
      (XTree.node "TimeInterval".data [("type".data, "Heures normales".data)] none
        [XTree.node "Duration".data [] (some "8.0".data) []]) =
      some { initData "".data with raf_hours := (initData "".data).raf_hours +
        (if containsSub "heure".data ("Heures normales".data.map Char.toLower)
         then 8 else 0) } :=
  ⟨by with_unfolding_all decide, by decide,
    C7_heure_label_only (initData "".data) "Heures normales".data "8.0".data 8
      (by with_unfolding_all decide) (by decide)⟩

/-- C8: the encoding resolver never raises (it is a total function whose
last resort is the always-successful latin-1 decode tagged as forced), it
passes text through, it tries the declared XML encoding before the
statistical detector regardless of what that detector reports, it ignores
the detector when its confidence is at most 0.7, and when the declared
encoding, the detector's candidate and every common encoding fail it
returns the forced latin-1 result. -/
theorem C8_decode_priority_total (det : List ℕ → Option LC × ℚ) :
    (∀ s : LC, detect_and_decode det (Sum.inl s) = (s, "already_string".data)) ∧
    (∀ (b : List ℕ) (e t : LC), declEnc b = some e → decodeByName e b = some t →
      detect_and_decode det (Sum.inr b) = (t, e)) ∧
    (∀ b : List ℕ, (det b).2 ≤ 7/10 →
      detect_and_decode det (Sum.inr b) =
        detect_and_decode (fun _ => (none, 0)) (Sum.inr b)) ∧
    (∀ b : List ℕ,
      (declEnc b).bind (fun e => (decodeByName e b).map fun t => (t, e)) = none →
      ((det b).1.bind fun e => (decodeByName e b).map fun t => (t, e)) = none →
      tryCommon commonEncodings b = none →
      detect_and_decode det (Sum.inr b) = (latin1D b, "latin-1_forced".data)) := by
  refine ⟨fun s => rfl, ?_, ?_, ?_⟩
  · intro b e t h1 h2
    simp only [detect_and_decode, h1, Option.some_bind, h2, Option.map_some']
  · intro b hc
    simp only [detect_and_decode]
    cases hdecl : (declEnc b).bind (fun e => (decodeByName e b).map fun t => (t, e)) with
    | some r => rfl
    | none =>
      have hng : ¬ ((det b).2 > 7/10) := not_lt.mpr hc
      have hng0 : ¬ ((0 : ℚ) > 7/10) := by norm_num
      rw [if_neg hng, if_neg hng0]
  · intro b h1 h2 h3
    simp only [detect_and_decode, h1, h3]
    by_cases hq : (det b).2 > 7/10
    · rw [if_pos hq, h2]
    · rw [if_neg hq]

/-- Witness for C8: bytes declaring latin-1 decode via the declared
encoding even though the oracle reports UTF-8 at confidence 0.9; a plain
string passes through. -/
theorem C8_decode_priority_total_witness :
    detect_and_decode det0 (Sum.inr bW8) = (latin1D bW8, "latin-1".data) ∧
    detect_and_decode det0 (Sum.inl "abc".data) =
      ("abc".data, "already_string".data) :=
  ⟨(C8_decode_priority_total det0).2.1 bW8 "latin-1".data (latin1D bW8)
      (by decide) (by decide),
    (C8_decode_priority_total det0).1 "abc".data⟩

/-- C9 counterexample: on the worked example (rafHours 8, invoiceHours 38,
totalCharges 854.76) the corrector does not produce the claimed
180.05 / 36.01 / 216.06. -/
theorem C9_claimed_values_wrong : fix d9 docTotals ≠ some docTotalsClaimed := by
  with_unfolding_all decide

/-- C9 (amended): exact arithmetic gives 854.76 * 8/38 = 179.949473…, so
the two-decimal outputs are 179.95, 35.99 and 215.94. -/
theorem C9_actual_values : fix d9 docTotals = some docTotalsFixed := by
  with_unfolding_all decide

/-- C10: the processor constructor decodes raw bytes strictly as UTF-8
(behaving on `some t` exactly as if given the text `t`, never invoking the
encoding resolver) and raises on invalid UTF-8 — even for bytes whose
declared encoding (latin-1) would decode successfully. -/
theorem C10_strict_utf8_decode :
    (∀ (b : List ℕ) (t : LC), utf8D b = some t →
      procInit (Sum.inr b) = procInit (Sum.inl t)) ∧
    (∀ b : List ℕ, utf8D b = none → procInit (Sum.inr b) = none) ∧
    (utf8D bW8 = none ∧ declEnc bW8 = some "latin-1".data ∧
      (decodeByName "latin-1".data bW8).isSome = true ∧
      procInit (Sum.inr bW8) = none) := by
  have p1 : ∀ (b : List ℕ) (t : LC), utf8D b = some t →
      procInit (Sum.inr b) = procInit (Sum.inl t) := by
    intro b t h
    simp only [procInit, h]
  have p2 : ∀ b : List ℕ, utf8D b = none → procInit (Sum.inr b) = none := by
    intro b h
    simp only [procInit, h]
  exact ⟨p1, p2, by decide, by decide, by decide, p2 bW8 (by decide)⟩

/-- Witness for C10: ASCII bytes decode and parse; the latin-1 bytes are
rejected. -/
theorem C10_strict_utf8_decode_witness :
    utf8D bGood = some "<a>x</a>".data ∧
    procInit (Sum.inr bGood) = procInit (Sum.inl "<a>x</a>".data) ∧
    procInit (Sum.inr bW8) = none :=
  ⟨by decide, C10_strict_utf8_decode.1 bGood "<a>x</a>".data (by decide),
    C10_strict_utf8_decode.2.1 bW8 (by decide)⟩

/-! ### The corrector on total-tag lines with arbitrary numeric contents -/

theorem substRunF_eq_nil (o cl : LC) (p : Char → Bool) (r : LC) (f : ℕ) :
    substRunF o cl p r f [] = [] := by
  cases f <;> rfl

theorem takeWhile_all_append {p : Char → Bool} {u : LC} (v : LC)
    (h : ∀ a ∈ u, p a = true) :
    (u ++ v).takeWhile p = u ++ v.takeWhile p := by
  induction u with
  | nil => simp
  | cons a u' ih =>
    have ha : p a = true := h a (List.mem_cons_self _ _)
    simp only [List.cons_append, List.takeWhile_cons, ha, if_true]
    rw [ih (fun x hx => h x (List.mem_cons_of_mem _ hx))]

theorem dropWhile_all_append {p : Char → Bool} {u : LC} (v : LC)
    (h : ∀ a ∈ u, p a = true) :
    (u ++ v).dropWhile p = v.dropWhile p := by
  induction u with
  | nil => simp
  | cons a u' ih =>
    have ha : p a = true := h a (List.mem_cons_self _ _)
    simp only [List.cons_append, List.dropWhile_cons, ha, if_true]
    exact ih (fun x hx => h x (List.mem_cons_of_mem _ hx))

theorem matchRun_head (o cl ds : LC) (p : Char → Bool)
    (hds : ds ≠ []) (hall : ∀ a ∈ ds, p a = true)
    (hclne : cl ≠ []) (hch : ∀ c, cl.head? = some c → p c = false) :
    matchRun o cl p (o ++ (ds ++ cl)) = some (ds, []) := by
  cases cl with
  | nil => exact absurd rfl hclne
  | cons c0 cl' =>
    have hc0 : p c0 = false := hch c0 rfl
    unfold matchRun
    rw [dropPref_append]
    dsimp only
    have htake : (ds ++ c0 :: cl').takeWhile p = ds := by
      rw [takeWhile_all_append _ hall]
      simp [List.takeWhile_cons, hc0]
    have hdrop : (ds ++ c0 :: cl').dropWhile p = c0 :: cl' := by
      rw [dropWhile_all_append _ hall]
      simp [List.dropWhile_cons, hc0]
    rw [htake, hdrop]
    have hne : ds.isEmpty = false := by
      cases ds with
      | nil => exact absurd rfl hds
      | cons a t => rfl
    rw [hne]
    have hdp : dropPref (c0 :: cl') (c0 :: cl') = some [] := by
      have := dropPref_append (c0 :: cl') []
      rwa [List.append_nil] at this
    simp only [Bool.false_eq_true, if_false, hdp]

theorem substRun_tag_line (o cl r ds : LC) (p : Char → Bool) (ho : o ≠ [])
    (hds : ds ≠ []) (hall : ∀ a ∈ ds, p a = true)
    (hclne : cl ≠ []) (hch : ∀ c, cl.head? = some c → p c = false) :
    substRun o cl p r (o ++ (ds ++ cl)) = o ++ (r ++ cl) := by
  unfold substRun
  cases o with
  | nil => exact absurd rfl ho
  | cons a os =>
    have hlen : (a :: os ++ (ds ++ cl)).length = (os ++ (ds ++ cl)).length + 1 := rfl
    rw [hlen]
    have hcons : (a :: os) ++ (ds ++ cl) = a :: (os ++ (ds ++ cl)) := rfl
    rw [hcons]
    rw [substRunF]
    rw [← hcons, matchRun_head _ _ _ _ hds hall hclne hch]
    dsimp only
    rw [substRunF_eq_nil, List.append_nil, List.append_assoc]

theorem dropPref_isSome {p l : LC} : (dropPref p l).isSome = true ↔ p <+: l := by
  constructor
  · intro h
    cases hd : dropPref p l with
    | none => rw [hd] at h; exact absurd h (by simp)
    | some r => exact ⟨r, (dropPref_eq_some hd).symm⟩
  · rintro ⟨r, rfl⟩
    rw [dropPref_append]
    rfl

theorem containsSub_iff {n l : LC} : containsSub n l = true ↔ n <:+: l := by
  induction l with
  | nil =>
    constructor
    · intro h
      have hn : n = [] := by
        cases n with
        | nil => rfl
        | cons a t => simp [containsSub] at h
      rw [hn]
    · intro h
      have hn : n = [] :=
        List.eq_nil_of_length_eq_zero (Nat.le_zero.mp h.sublist.length_le)
      rw [hn]
      rfl
  | cons x xs ih =>
    simp only [containsSub, Bool.or_eq_true]
    rw [dropPref_isSome, ih, List.infix_cons_iff]

theorem containsSub_eq_false_of {n l : LC} {c : Char} (hc : c ∈ n) (hl : c ∉ l) :
    containsSub n l = false := by
  cases h : containsSub n l with
  | false => rfl
  | true => exact absurd ((containsSub_iff.mp h).sublist.subset hc) hl

theorem notMem_TC_line {ds : LC} (hall : ∀ a ∈ ds, isNumCh a = true)
    (c : Char) (hn : isNumCh c = false)
    (h1 : c ∉ "<TotalCharges>".data) (h2 : c ∉ "</TotalCharges>".data) :
    c ∉ ("<TotalCharges>".data ++ (ds ++ "</TotalCharges>".data)) := by
  intro hmem
  rcases List.mem_append.mp hmem with h | h
  · exact h1 h
  · rcases List.mem_append.mp h with h | h
    · rw [hall c h] at hn
      exact Bool.noConfusion hn
    · exact h2 h

theorem notMem_Tax_line {ds : LC} (hall : ∀ a ∈ ds, isNumCh a = true)
    (c : Char) (hn : isNumCh c = false)
    (h1 : c ∉ "<TotalTax>".data) (h2 : c ∉ "</TotalTax>".data) :
    c ∉ ("<TotalTax>".data ++ (ds ++ "</TotalTax>".data)) := by
  intro hmem
  rcases List.mem_append.mp hmem with h | h
  · exact h1 h
  · rcases List.mem_append.mp h with h | h
    · rw [hall c h] at hn
      exact Bool.noConfusion hn
    · exact h2 h

theorem notMem_Amt_line {ds : LC} (hall : ∀ a ∈ ds, isNumCh a = true)
    (c : Char) (hn : isNumCh c = false)
    (h1 : c ∉ "<TotalAmount>".data) (h2 : c ∉ "</TotalAmount>".data) :
    c ∉ ("<TotalAmount>".data ++ (ds ++ "</TotalAmount>".data)) := by
  intro hmem
  rcases List.mem_append.mp hmem with h | h
  · exact h1 h
  · rcases List.mem_append.mp h with h | h
    · rw [hall c h] at hn
      exact Bool.noConfusion hn
    · exact h2 h

theorem correct_line_TC_gen (d : Analysis) (corr : Corrections) (ds : LC)
    (hds : ds ≠ []) (hall : ∀ a ∈ ds, isNumCh a = true) :
    correct_line d corr ("<TotalCharges>".data ++ (ds ++ "</TotalCharges>".data)) =
      some ("<TotalCharges>".data ++ (fmt2 corr.ctc ++ "</TotalCharges>".data)) := by
  have e1 : substRun "<TotalCharges>".data "</TotalCharges>".data isNumCh
      (fmt2 corr.ctc) ("<TotalCharges>".data ++ (ds ++ "</TotalCharges>".data)) =
      "<TotalCharges>".data ++ (fmt2 corr.ctc ++ "</TotalCharges>".data) :=
    substRun_tag_line _ _ _ _ _ (by decide) hds hall (by decide)
      (fun c hc => (Option.some.inj hc) ▸ (by decide))
  have e2 : substRun "<TotalTax>".data "</TotalTax>".data isNumCh
      (fmt2 (corr.ctc * (20/100)))
      ("<TotalCharges>".data ++ (fmt2 corr.ctc ++ "</TotalCharges>".data)) =
      "<TotalCharges>".data ++ (fmt2 corr.ctc ++ "</TotalCharges>".data) :=
    substRun_skip_glue (by decide) (by decide) (fmt2_clean _) (fmt2_ne_nil _)
      (by decide) (by decide)
  have e3 : substRun "<TotalAmount>".data "</TotalAmount>".data isNumCh
      (fmt2 (corr.ctc * (120/100)))
      ("<TotalCharges>".data ++ (fmt2 corr.ctc ++ "</TotalCharges>".data)) =
      "<TotalCharges>".data ++ (fmt2 corr.ctc ++ "</TotalCharges>".data) :=
    substRun_skip_glue (by decide) (by decide) (fmt2_clean _) (fmt2_ne_nil _)
      (by decide) (by decide)
  have e4 : substRun "owner=\"NbHeuresFacturees\">".data "<".data isNumCh
      (fmt2 corr.chrs)
      ("<TotalCharges>".data ++ (fmt2 corr.ctc ++ "</TotalCharges>".data)) =
      "<TotalCharges>".data ++ (fmt2 corr.ctc ++ "</TotalCharges>".data) :=
    substRun_skip_glue (by decide) (by decide) (fmt2_clean _) (fmt2_ne_nil _)
      (by decide) (by decide)
  have e5 : substRun "owner=\"DEB_PER\">".data "<".data (fun c => !(c == '<'))
      (strOf corr.cper)
      ("<TotalCharges>".data ++ (fmt2 corr.ctc ++ "</TotalCharges>".data)) =
      "<TotalCharges>".data ++ (fmt2 corr.ctc ++ "</TotalCharges>".data) :=
    substRun_skip_glue (by decide) (by decide) (fmt2_clean _) (fmt2_ne_nil _)
      (by decide) (by decide)
  have e6 : substRun "owner=\"FIN_PER\">".data "<".data (fun c => !(c == '<'))
      (strOf corr.cper)
      ("<TotalCharges>".data ++ (fmt2 corr.ctc ++ "</TotalCharges>".data)) =
      "<TotalCharges>".data ++ (fmt2 corr.ctc ++ "</TotalCharges>".data) :=
    substRun_skip_glue (by decide) (by decide) (fmt2_clean _) (fmt2_ne_nil _)
      (by decide) (by decide)
  have hI1 : containsSub "ItemQuantity".data
      ("<TotalCharges>".data ++ (ds ++ "</TotalCharges>".data)) = false :=
    containsSub_eq_false_of (by decide)
      (notMem_TC_line hall 'I' (by decide) (by decide) (by decide))
  have hS : containsSub "Supplémentaire".data
      ("<TotalCharges>".data ++ (ds ++ "</TotalCharges>".data)) = false :=
    containsSub_eq_false_of (by decide)
      (notMem_TC_line hall 'S' (by decide) (by decide) (by decide))
  have hR : containsSub "RTT".data
      ("<TotalCharges>".data ++ (ds ++ "</TotalCharges>".data)) = false :=
    containsSub_eq_false_of (by decide)
      (notMem_TC_line hall 'R' (by decide) (by decide) (by decide))
  have hH : containsSub "HS 125".data
      ("<TotalCharges>".data ++ (ds ++ "</TotalCharges>".data)) = false :=
    containsSub_eq_false_of (by decide)
      (notMem_TC_line hall 'H' (by decide) (by decide) (by decide))
  simp only [correct_line]
  rw [e1, e2, e3, e4, e5, e6, hI1]
  simp only [Bool.false_and, Bool.false_eq_true, if_false, Option.map_some']
  rw [List.any_cons, List.any_cons, List.any_cons, List.any_nil, hS, hR, hH]
  simp only [Bool.or_false, Bool.and_false, Bool.false_and, Bool.false_eq_true,
    if_false]

theorem noInfix_of_nomem {o l : LC} {c : Char} (hc : c ∈ o) (hl : c ∉ l) :
    ¬ o <:+: l :=
  fun h => hl (h.sublist.subset hc)

theorem correct_line_Tax_gen (d : Analysis) (corr : Corrections) (ds : LC)
    (hds : ds ≠ []) (hall : ∀ a ∈ ds, isNumCh a = true) :
    correct_line d corr ("<TotalTax>".data ++ (ds ++ "</TotalTax>".data)) =
      some ("<TotalTax>".data ++
        (fmt2 (corr.ctc * (20/100)) ++ "</TotalTax>".data)) := by
  have e1 : substRun "<TotalCharges>".data "</TotalCharges>".data isNumCh
      (fmt2 corr.ctc) ("<TotalTax>".data ++ (ds ++ "</TotalTax>".data)) =
      "<TotalTax>".data ++ (ds ++ "</TotalTax>".data) :=
    substRun_skip (noInfix_of_nomem (by decide)
      (notMem_Tax_line hall 'C' (by decide) (by decide) (by decide)))
  have e2 : substRun "<TotalTax>".data "</TotalTax>".data isNumCh
      (fmt2 (corr.ctc * (20/100)))
      ("<TotalTax>".data ++ (ds ++ "</TotalTax>".data)) =
      "<TotalTax>".data ++ (fmt2 (corr.ctc * (20/100)) ++ "</TotalTax>".data) :=
    substRun_tag_line _ _ _ _ _ (by decide) hds hall (by decide)
      (fun c hc => (Option.some.inj hc) ▸ (by decide))
  have e3 : substRun "<TotalAmount>".data "</TotalAmount>".data isNumCh
      (fmt2 (corr.ctc * (120/100)))
      ("<TotalTax>".data ++ (fmt2 (corr.ctc * (20/100)) ++ "</TotalTax>".data)) =
      "<TotalTax>".data ++ (fmt2 (corr.ctc * (20/100)) ++ "</TotalTax>".data) :=
    substRun_skip_glue (by decide) (by decide) (fmt2_clean _) (fmt2_ne_nil _)
      (by decide) (by decide)
  have e4 : substRun "owner=\"NbHeuresFacturees\">".data "<".data isNumCh
      (fmt2 corr.chrs)
      ("<TotalTax>".data ++ (fmt2 (corr.ctc * (20/100)) ++ "</TotalTax>".data)) =
      "<TotalTax>".data ++ (fmt2 (corr.ctc * (20/100)) ++ "</TotalTax>".data) :=
    substRun_skip_glue (by decide) (by decide) (fmt2_clean _) (fmt2_ne_nil _)
      (by decide) (by decide)
  have e5 : substRun "owner=\"DEB_PER\">".data "<".data (fun c => !(c == '<'))
      (strOf corr.cper)
      ("<TotalTax>".data ++ (fmt2 (corr.ctc * (20/100)) ++ "</TotalTax>".data)) =
      "<TotalTax>".data ++ (fmt2 (corr.ctc * (20/100)) ++ "</TotalTax>".data) :=
    substRun_skip_glue (by decide) (by decide) (fmt2_clean _) (fmt2_ne_nil _)
      (by decide) (by decide)
  have e6 : substRun "owner=\"FIN_PER\">".data "<".data (fun c => !(c == '<'))
      (strOf corr.cper)
      ("<TotalTax>".data ++ (fmt2 (corr.ctc * (20/100)) ++ "</TotalTax>".data)) =
      "<TotalTax>".data ++ (fmt2 (corr.ctc * (20/100)) ++ "</TotalTax>".data) :=
    substRun_skip_glue (by decide) (by decide) (fmt2_clean _) (fmt2_ne_nil _)
      (by decide) (by decide)
  have hI1 : containsSub "ItemQuantity".data
      ("<TotalTax>".data ++ (ds ++ "</TotalTax>".data)) = false :=
    containsSub_eq_false_of (by decide)
      (notMem_Tax_line hall 'I' (by decide) (by decide) (by decide))
  have hS : containsSub "Supplémentaire".data
      ("<TotalTax>".data ++ (ds ++ "</TotalTax>".data)) = false :=
    containsSub_eq_false_of (by decide)
      (notMem_Tax_line hall 'S' (by decide) (by decide) (by decide))
  have hR : containsSub "RTT".data
      ("<TotalTax>".data ++ (ds ++ "</TotalTax>".data)) = false :=
    containsSub_eq_false_of (by decide)
      (notMem_Tax_line hall 'R' (by decide) (by decide) (by decide))
  have hH : containsSub "HS 125".data
      ("<TotalTax>".data ++ (ds ++ "</TotalTax>".data)) = false :=
    containsSub_eq_false_of (by decide)
      (notMem_Tax_line hall 'H' (by decide) (by decide) (by decide))
  simp only [correct_line]
  rw [e1, e2, e3, e4, e5, e6, hI1]
  simp only [Bool.false_and, Bool.false_eq_true, if_false, Option.map_some']
  rw [List.any_cons, List.any_cons, List.any_cons, List.any_nil, hS, hR, hH]
  simp only [Bool.or_false, Bool.and_false, Bool.false_and, Bool.false_eq_true,
    if_false]

theorem correct_line_Amt_gen (d : Analysis) (corr : Corrections) (ds : LC)
    (hds : ds ≠ []) (hall : ∀ a ∈ ds, isNumCh a = true) :
    correct_line d corr ("<TotalAmount>".data ++ (ds ++ "</TotalAmount>".data)) =
      some ("<TotalAmount>".data ++
        (fmt2 (corr.ctc * (120/100)) ++ "</TotalAmount>".data)) := by
  have e1 : substRun "<TotalCharges>".data "</TotalCharges>".data isNumCh
      (fmt2 corr.ctc) ("<TotalAmount>".data ++ (ds ++ "</TotalAmount>".data)) =
      "<TotalAmount>".data ++ (ds ++ "</TotalAmount>".data) :=
    substRun_skip (noInfix_of_nomem (by decide)
      (notMem_Amt_line hall 'C' (by decide) (by decide) (by decide)))
  have e2 : substRun "<TotalTax>".data "</TotalTax>".data isNumCh
      (fmt2 (corr.ctc * (20/100)))
      ("<TotalAmount>".data ++ (ds ++ "</TotalAmount>".data)) =
      "<TotalAmount>".data ++ (ds ++ "</TotalAmount>".data) :=
    substRun_skip (noInfix_of_nomem (by decide)
      (notMem_Amt_line hall 'x' (by decide) (by decide) (by decide)))
  have e3 : substRun "<TotalAmount>".data "</TotalAmount>".data isNumCh
      (fmt2 (corr.ctc * (120/100)))
      ("<TotalAmount>".data ++ (ds ++ "</TotalAmount>".data)) =
      "<TotalAmount>".data ++ (fmt2 (corr.ctc * (120/100)) ++ "</TotalAmount>".data) :=
    substRun_tag_line _ _ _ _ _ (by decide) hds hall (by decide)
      (fun c hc => (Option.some.inj hc) ▸ (by decide))
  have e4 : substRun "owner=\"NbHeuresFacturees\">".data "<".data isNumCh
      (fmt2 corr.chrs)
      ("<TotalAmount>".data ++ (fmt2 (corr.ctc * (120/100)) ++ "</TotalAmount>".data)) =
      "<TotalAmount>".data ++ (fmt2 (corr.ctc * (120/100)) ++ "</TotalAmount>".data) :=
    substRun_skip_glue (by decide) (by decide) (fmt2_clean _) (fmt2_ne_nil _)
      (by decide) (by decide)
  have e5 : substRun "owner=\"DEB_PER\">".data "<".data (fun c => !(c == '<'))
      (strOf corr.cper)
      ("<TotalAmount>".data ++ (fmt2 (corr.ctc * (120/100)) ++ "</TotalAmount>".data)) =
      "<TotalAmount>".data ++ (fmt2 (corr.ctc * (120/100)) ++ "</TotalAmount>".data) :=
    substRun_skip_glue (by decide) (by decide) (fmt2_clean _) (fmt2_ne_nil _)
      (by decide) (by decide)
  have e6 : substRun "owner=\"FIN_PER\">".data "<".data (fun c => !(c == '<'))
      (strOf corr.cper)
      ("<TotalAmount>".data ++ (fmt2 (corr.ctc * (120/100)) ++ "</TotalAmount>".data)) =
      "<TotalAmount>".data ++ (fmt2 (corr.ctc * (120/100)) ++ "</TotalAmount>".data) :=
    substRun_skip_glue (by decide) (by decide) (fmt2_clean _) (fmt2_ne_nil _)
      (by decide) (by decide)
  have hI1 : containsSub "ItemQuantity".data
      ("<TotalAmount>".data ++ (ds ++ "</TotalAmount>".data)) = false :=
    containsSub_eq_false_of (by decide)
      (notMem_Amt_line hall 'I' (by decide) (by decide) (by decide))
  have hS : containsSub "Supplémentaire".data
      ("<TotalAmount>".data ++ (ds ++ "</TotalAmount>".data)) = false :=
    containsSub_eq_false_of (by decide)
      (notMem_Amt_line hall 'S' (by decide) (by decide) (by decide))
  have hR : containsSub "RTT".data
      ("<TotalAmount>".data ++ (ds ++ "</TotalAmount>".data)) = false :=
    containsSub_eq_false_of (by decide)
      (notMem_Amt_line hall 'R' (by decide) (by decide) (by decide))
  have hH : containsSub "HS 125".data
      ("<TotalAmount>".data ++ (ds ++ "</TotalAmount>".data)) = false :=
    containsSub_eq_false_of (by decide)
      (notMem_Amt_line hall 'H' (by decide) (by decide) (by decide))
  simp only [correct_line]
  rw [e1, e2, e3, e4, e5, e6, hI1]
  simp only [Bool.false_and, Bool.false_eq_true, if_false, Option.map_some']
  rw [List.any_cons, List.any_cons, List.any_cons, List.any_nil, hS, hR, hH]
  simp only [Bool.or_false, Bool.and_false, Bool.false_and, Bool.false_eq_true,
    if_false]

/-- A three-line document whose lines carry the three monetary total tags
with arbitrary contents. -/
def docTotalsG (ds1 ds2 ds3 : LC) : LC :=
  ("<TotalCharges>".data ++ (ds1 ++ "</TotalCharges>".data)) ++ '\n' ::
    (("<TotalTax>".data ++ (ds2 ++ "</TotalTax>".data)) ++ '\n' ::
      ("<TotalAmount>".data ++ (ds3 ++ "</TotalAmount>".data)))

theorem fix_docTotalsG (d : Analysis) (hI : d.has_issue = true)
    (ds1 ds2 ds3 : LC)
    (hds1 : ds1 ≠ []) (hall1 : ∀ a ∈ ds1, isNumCh a = true)
    (hds2 : ds2 ≠ []) (hall2 : ∀ a ∈ ds2, isNumCh a = true)
    (hds3 : ds3 ≠ []) (hall3 : ∀ a ∈ ds3, isNumCh a = true) :
    fix d (docTotalsG ds1 ds2 ds3) = some (docTotalsG
      (fmt2 (d.total_charges * ratioOf d))
      (fmt2 (d.total_charges * ratioOf d * (20/100)))
      (fmt2 (d.total_charges * ratioOf d * (120/100)))) := by
  have hnl1 : '\n' ∉ ("<TotalCharges>".data ++ (ds1 ++ "</TotalCharges>".data)) :=
    notMem_TC_line hall1 '\n' (by decide) (by decide) (by decide)
  have hnl2 : '\n' ∉ ("<TotalTax>".data ++ (ds2 ++ "</TotalTax>".data)) :=
    notMem_Tax_line hall2 '\n' (by decide) (by decide) (by decide)
  have hnl3 : '\n' ∉ ("<TotalAmount>".data ++ (ds3 ++ "</TotalAmount>".data)) :=
    notMem_Amt_line hall3 '\n' (by decide) (by decide) (by decide)
  have hsplit : splitLines (docTotalsG ds1 ds2 ds3) =
      [("<TotalCharges>".data ++ (ds1 ++ "</TotalCharges>".data)),
       ("<TotalTax>".data ++ (ds2 ++ "</TotalTax>".data)),
       ("<TotalAmount>".data ++ (ds3 ++ "</TotalAmount>".data))] := by
    unfold docTotalsG
    rw [splitLines_append _ hnl1, splitLines_append _ hnl2, splitLines_pure hnl3]
  unfold fix
  rw [hI]
  simp only [Bool.not_true, Bool.false_eq_true, if_false]
  rw [hsplit]
  simp only [mapLines]
  rw [correct_line_TC_gen d _ ds1 hds1 hall1]
  dsimp only
  rw [correct_line_Tax_gen d _ ds2 hds2 hall2]
  dsimp only
  rw [correct_line_Amt_gen d _ ds3 hds3 hall3]
  dsimp only
  simp only [joinLines, Option.map_some']
  unfold docTotalsG
  with_unfolding_all rfl

/-- C1: for every analysis record with `hasIssue` true and every document
whose lines carry the three monetary tags with arbitrary (nonempty,
numeric-class) contents, `fix` rewrites each line's `TotalCharges`,
`TotalTax` and `TotalAmount` tag contents to `net = totalCharges * ratio`
(with `ratio = rafHours / invoiceHours` when `invoiceHours > 0`, else `1`),
`tax = net * 0.20` and `gross = net * 1.20`, each formatted to two
decimals, the scaling computed in exact arithmetic. -/
theorem C1_fix_rewrites_totals (d : Analysis) (hI : d.has_issue = true)
    (ds1 ds2 ds3 : LC)
    (hds1 : ds1 ≠ []) (hall1 : ∀ a ∈ ds1, isNumCh a = true)
    (hds2 : ds2 ≠ []) (hall2 : ∀ a ∈ ds2, isNumCh a = true)
    (hds3 : ds3 ≠ []) (hall3 : ∀ a ∈ ds3, isNumCh a = true) :
    fix d (docTotalsG ds1 ds2 ds3) = some (docTotalsG
      (fmt2 (d.total_charges * ratioOf d))
      (fmt2 (d.total_charges * ratioOf d * (20/100)))
      (fmt2 (d.total_charges * ratioOf d * (120/100)))) :=
  fix_docTotalsG d hI ds1 ds2 ds3 hds1 hall1 hds2 hall2 hds3 hall3

/-- Witness for C1: a concrete flagged record (ratio 1/8, net 100) on the
854.76 / 170.95 / 1025.71 document. -/
theorem C1_fix_rewrites_totals_witness :
    d1w.has_issue = true ∧ ("854.76".data : LC) ≠ [] ∧
    (∀ a ∈ ("854.76".data : LC), isNumCh a = true) ∧
    fix d1w (docTotalsG "854.76".data "170.95".data "1025.71".data) =
      some (docTotalsG "12.50".data "2.50".data "15.00".data) :=
  ⟨rfl, by decide, by decide,
    (C1_fix_rewrites_totals d1w rfl "854.76".data "170.95".data "1025.71".data
      (by decide) (by decide) (by decide) (by decide) (by decide)
      (by decide)).trans (by with_unfolding_all rfl)⟩

/-! ### Extraction never flags an issue (only detection does) -/

theorem foldlM_preserve {α : Type} {P : Analysis → Prop}
    (step : Analysis → α → Option Analysis) :
    ∀ (l : List α) (init out : Analysis),
      (∀ acc el y, step acc el = some y → P acc → P y) →
      l.foldlM step init = some out → P init → P out := by
  intro l
  induction l with
  | nil =>
    intro init out _ hf hP
    have he : init = out := Option.some.inj hf
    rw [← he]
    exact hP
  | cons a as ih =>
    intro init out hstep hf hP
    simp only [List.foldlM] at hf
    cases hs : step init a with
    | none => rw [hs] at hf; exact absurd hf (by simp)
    | some b =>
      rw [hs] at hf
      simp only [Option.bind_eq_bind, Option.some_bind] at hf
      exact ih b out hstep hf (hstep init a b hs hP)

theorem processTI_pres {d : Analysis} {iv : XTree} {y : Analysis}
    (h : processTimeInterval d iv = some y)
    (hP : d.has_issue = false) : y.has_issue = false := by
  unfold processTimeInterval at h
  refine foldlM_preserve (P := fun x => x.has_issue = false) _ _ _ _ ?_ h hP
  intro acc el z hz hPacc
  dsimp only at hz
  split at hz
  · split at hz
    · split at hz
      · rw [← Option.some.inj hz]
        exact hPacc
      · exact absurd hz (by simp)
    · rw [← Option.some.inj hz]
      exact hPacc
  · rw [← Option.some.inj hz]
    exact hPacc

theorem extractTimecards_pres {F : ℕ} {root : XTree} {d y : Analysis}
    (h : extractTimecards F root d = some y)
    (hP : d.has_issue = false) : y.has_issue = false := by
  unfold extractTimecards at h
  refine foldlM_preserve (P := fun x => x.has_issue = false) _ _ _ _ ?_ h hP
  intro acc el z hz hPacc
  dsimp only at hz
  split at hz
  · refine foldlM_preserve (P := fun x => x.has_issue = false) _ _ _ _ ?_ hz hPacc
    intro acc2 ch z2 hz2 hP2
    split at hz2
    · rw [← Option.some.inj hz2]
      split
      · exact hP2
      · exact hP2
    · split at hz2
      · rw [← Option.some.inj hz2]
        split
        · exact hP2
        · exact hP2
      · split at hz2
        · exact processTI_pres hz2 hP2
        · rw [← Option.some.inj hz2]
          exact hP2
  · rw [← Option.some.inj hz]
    exact hPacc

theorem extractInvoiceData_pres {F : ℕ} {root : XTree} {d y : Analysis}
    (h : extractInvoiceData F root d = some y)
    (hP : d.has_issue = false) : y.has_issue = false := by
  unfold extractInvoiceData at h
  refine foldlM_preserve (P := fun x => x.has_issue = false) _ _ _ _ ?_ h hP
  intro acc el z hz hPacc
  dsimp only at hz
  split at hz
  · split at hz
    · cases hpq : parsePyFloat (el.text.getD []) with
      | none => rw [hpq] at hz; exact absurd hz (by simp)
      | some q =>
        rw [hpq] at hz
        simp only [Option.map_some'] at hz
        rw [← Option.some.inj hz]
        exact hPacc
    · rw [← Option.some.inj hz]
      exact hPacc
  · split at hz
    · split at hz
      · cases hpq : parsePyFloat (el.text.getD []) with
        | none => rw [hpq] at hz; exact absurd hz (by simp)
        | some q =>
          rw [hpq] at hz
          simp only [Option.map_some'] at hz
          rw [← Option.some.inj hz]
          exact hPacc
      · rw [← Option.some.inj hz]
        exact hPacc
    · split at hz
      · split at hz
        · cases hpq : parsePyFloat (el.text.getD []) with
          | none => rw [hpq] at hz; exact absurd hz (by simp)
          | some q =>
            rw [hpq] at hz
            simp only [Option.map_some'] at hz
            rw [← Option.some.inj hz]
            exact hPacc
        · rw [← Option.some.inj hz]
          exact hPacc
      · split at hz
        · cases hl : extractLine F root el with
          | none => rw [hl] at hz; exact absurd hz (by simp)
          | some ld? =>
            rw [hl] at hz
            simp only [Option.map_some'] at hz
            rw [← Option.some.inj hz]
            cases ld? with
            | none => exact hPacc
            | some ld =>
              dsimp only
              split
              · exact hPacc
              · exact hPacc
        · rw [← Option.some.inj hz]
          exact hPacc

/-- Detection never changes the extracted fields it reads. -/
theorem detect_fields (x : Analysis) :
    (detectIssues x).raf_hours = x.raf_hours ∧
    (detectIssues x).invoice_hours = x.invoice_hours ∧
    singleDayCond (detectIssues x) = singleDayCond x := by
  unfold detectIssues
  dsimp only
  by_cases h1 : |x.raf_hours - x.invoice_hours| > 1/100
  · rw [if_pos h1]
    split
    · exact ⟨rfl, rfl, rfl⟩
    · exact ⟨rfl, rfl, rfl⟩
  · rw [if_neg h1]
    split
    · exact ⟨rfl, rfl, rfl⟩
    · exact ⟨rfl, rfl, rfl⟩

/-- A consistent document: one 5-hour RAF interval, one 5-hour invoiced
line, distinct period bounds. -/
def docConsist : LC := ("<Envelope>\n<TimeCard><PeriodStartDate>2024-08-26</PeriodStartDate><PeriodEndDate>2024-08-30</PeriodEndDate><TimeInterval type=\"heures\"><Duration>5</Duration></TimeInterval></TimeCard>\n<Line><Description>heure</Description><ItemQuantity uom=\"HUR\">5</ItemQuantity><Charge><Total>100</Total></Charge></Line>\n</Envelope>").data

/-- C3: for every document text whose analysis succeeds, if the extracted
hour gap is within the 0.01 tolerance and the single-day heuristic does not
fire, the resulting analysis leaves `hasIssue` false and `fix` returns the
original text unchanged. -/
theorem C3_consistent_identity (xml : LC) (d : Analysis)
    (ha : analyze xml = some d)
    (h1 : ¬ (|d.raf_hours - d.invoice_hours| > 1/100))
    (h2 : ¬ (singleDayCond d = true)) :
    d.has_issue = false ∧ fix d xml = some xml := by
  unfold analyze at ha
  cases hp : parseDoc xml with
  | none => rw [hp] at ha; exact absurd ha (by simp)
  | some root =>
    rw [hp] at ha
    simp only [Option.some_bind] at ha
    unfold analyzeTree at ha
    cases ht : extractTimecards (xml.length + 1) root
        (initData (getInvoiceId (xml.length + 1) root)) with
    | none => rw [ht] at ha; exact absurd ha (by simp)
    | some d1 =>
      rw [ht] at ha
      simp only [Option.some_bind] at ha
      cases hi : extractInvoiceData (xml.length + 1) root d1 with
      | none => rw [hi] at ha; exact absurd ha (by simp)
      | some d2 =>
        rw [hi] at ha
        simp only [Option.map_some'] at ha
        have hd : d = detectIssues d2 := (Option.some.inj ha).symm
        have h0 : d2.has_issue = false :=
          extractInvoiceData_pres hi (extractTimecards_pres ht rfl)
        obtain ⟨hr, hv, hs⟩ := detect_fields d2
        have h1' : ¬ (|d2.raf_hours - d2.invoice_hours| > 1/100) := by
          rw [← hr, ← hv, ← hd]; exact h1
        have h2' : ¬ (singleDayCond d2 = true) := by
          rw [← hs, ← hd]; exact h2
        have hdd : d = d2 := by rw [hd, detect_id d2 h1' h2']
        rw [hdd]
        exact ⟨h0, fix_noop d2 xml h0⟩

/-- Witness for C3: the consistent document analyzes without a flag and is
returned unchanged by `fix`. -/
theorem C3_consistent_identity_witness :
    (analyze docConsist).map Analysis.has_issue = some false ∧
    (analyze docConsist).bind (fun d => fix d docConsist) = some docConsist := by
  cases h : analyze docConsist with
  | none =>
    have hs : (analyze docConsist).isSome = true := by with_unfolding_all decide
    rw [h] at hs
    exact absurd hs (by simp)
  | some d =>
    have h1 : (analyze docConsist).map
        (fun x => decide (|x.raf_hours - x.invoice_hours| > 1/100)) = some false := by
      with_unfolding_all decide
    have h2 : (analyze docConsist).map singleDayCond = some false := by
      with_unfolding_all decide
    rw [h] at h1 h2
    simp only [Option.map_some'] at h1 h2
    have h1' : ¬ (|d.raf_hours - d.invoice_hours| > 1/100) :=
      of_decide_eq_false (Option.some.inj h1)
    have h2' : ¬ (singleDayCond d = true) := by simp [Option.some.inj h2]
    obtain ⟨hA, hB⟩ := C3_consistent_identity docConsist d h h1' h2'
    constructor
    · rw [Option.map_some', hA]
    · rw [Option.some_bind]; exact hB
